import Mathlib

/-!
Verification of the MLR_Modem serial driver (MLR_Modem.h / MLR_Modem.cpp).

This file gives a shallow embedding of the driver core: the byte-level
framing state machine (MLR_Modem::m_Parse and its helpers), the bounded
response wait (m_WaitCmdResponse), the value decoders
(m_HandleMessageHexByte, m_HandleMessage_RS, ...), and the public
request-issuing operations, together with theorems about them.

Bytes are modelled as natural numbers (all inputs considered are below
256); the receive buffers m_rxMessage and m_drMessage are modelled as
total functions from indices to bytes, which is faithful on every
execution considered here because the C++ code never writes out of
bounds on those paths (overflow is detected before the index passes the
buffer size).  The UART is modelled as the list of bytes not yet read;
the one-byte unread buffer m_oneByteBuf is an optional byte.  Wall-clock
time in m_WaitCmdResponse is modelled by iteration ticks: the loop body
runs once per elapsed millisecond (the C++ loop delays one millisecond
per iteration), and the bytes arriving from the modem are given as one
batch per tick.
-/

/-- C ctype isupper, ASCII / C locale: the uppercase letters A..Z. -/
def isupper (b : Nat) : Bool := 65 ≤ b && b ≤ 90

/-- C ctype isdigit: the decimal digits 0..9. -/
def isdigit (b : Nat) : Bool := 48 ≤ b && b ≤ 57

/-- C ctype isxdigit: 0..9, A..F, a..f. -/
def isxdigit (b : Nat) : Bool :=
  isdigit b || (65 ≤ b && b ≤ 70) || (97 ≤ b && b ≤ 102)

/-- C ctype isspace: space, tab, LF, VT, FF, CR. -/
def isspace (b : Nat) : Bool := b = 32 || (9 ≤ b && b ≤ 13)

/-- Value of one hex digit, as computed inside s_ParseHex. -/
def hexDigitVal (b : Nat) : Nat :=
  if 97 ≤ b then b - 97 + 10
  else if 65 ≤ b then b - 65 + 10
  else b - 48

/-- s_ParseHex from MLR_Modem.cpp, on the list of bytes it scans: every
byte must be a hex digit; the accumulated value is built high digit
first. -/
def s_ParseHex : List Nat → Option Nat → Option Nat
  | [], acc => acc
  | b :: rest, acc =>
    match acc with
    | none => none
    | some v => if isxdigit b then s_ParseHex rest (some (v * 16 + hexDigitVal b)) else none

/-- s_ParseDec from MLR_Modem.cpp, on the list of bytes it scans. -/
def s_ParseDec : List Nat → Option Nat → Option Nat
  | [], acc => acc
  | b :: rest, acc =>
    match acc with
    | none => none
    | some v => if isdigit b then s_ParseDec rest (some (v * 10 + (b - 48))) else none

/-- One uppercase hex digit, as produced by printf %02X. -/
def toHexDigit (n : Nat) : Nat := if n < 10 then 48 + n else 55 + n

/-- Two uppercase hex digits of a byte, as produced by printf %02X for a
uint8_t value. -/
def toHex2 (v : Nat) : List Nat := [toHexDigit (v / 16), toHexDigit (v % 16)]

/-- enum MLR_ModemParserState from MLR_Modem.h. -/
inductive MLR_ModemParserState where
  | Start
  | ReadCmdFirstLetter
  | ReadCmdSecondLetter
  | ReadCmdParam
  | ReadRawString
  | RadioDrSize
  | RadioDrPayload
  | ReadCmdUntilCR
  | ReadCmdUntilLF
deriving DecidableEq, Repr

/-- enum MLR_ModemCmdState from MLR_Modem.h. -/
inductive MLR_ModemCmdState where
  | Parsing
  | Garbage
  | Overflow
  | FinishedCmdResponse
  | FinishedDrResponse
deriving DecidableEq, Repr

/-- enum MLR_Modem_Error from MLR_Modem.h. -/
inductive MLR_Modem_Error where
  | Ok
  | Busy
  | InvalidArg
  | FailLbt
  | Fail
  | BufferTooSmall
deriving DecidableEq, Repr

/-- enum MLR_Modem_Response from MLR_Modem.h. -/
inductive MLR_Modem_Response where
  | Idle
  | ParseError
  | Timeout
  | ShowMode
  | SaveValue
  | Channel
  | SerialNumber
  | MLR_Modem_DtIr
  | DataReceived
  | RssiLastRx
  | RssiCurrentChannel
  | UserID
  | CarrierSenseRssi
  | FactoryResetResp
  | BaudRate
  | GenericResponse
deriving DecidableEq, Repr

/-- enum MLR_ModemMode from MLR_Modem.h. -/
inductive MLR_ModemMode where
  | FskBin
  | FskCmd
  | LoRaBin
  | LoRaCmd
deriving DecidableEq, Repr

/-- Pointwise update of a buffer modelled as a function. -/
def updFn (f : Nat → Nat) (i v : Nat) : Nat → Nat :=
  fun j => if j = i then v else f j

/-- The first n bytes of a buffer, as a list. -/
def readOut (f : Nat → Nat) (n : Nat) : List Nat := (List.range n).map f

/-- Write a list of bytes into a buffer starting at index k. -/
def writeList (f : Nat → Nat) (k : Nat) : List Nat → (Nat → Nat)
  | [] => f
  | c :: cs => writeList (updFn f k c) (k + 1) cs

/-- The mutable state of one MLR_Modem driver instance, together with the
uart receive queue (input), the log of bytes the driver wrote to the
uart (txLog) and the log of data-reception payloads delivered to the
asynchronous callback (cbLog). -/
structure Modem where
  parserState : MLR_ModemParserState
  oneByteBuf : Option Nat
  rxIdx : Nat
  rxMessage : Nat → Nat
  drMessagePresent : Bool
  drMessageLen : Nat
  drMessage : Nat → Nat
  asyncExpectedResponse : MLR_Modem_Response
  mode : MLR_ModemMode
  input : List Nat
  txLog : List Nat
  cbLog : List (List Nat)

/-- State right after MLR_Modem::begin has reset the driver (before the
initial GetMode probe), with mode the cached mode and input the pending
uart bytes. -/
def initModem (mode : MLR_ModemMode) (input : List Nat) : Modem :=
  { parserState := .Start
    oneByteBuf := none
    rxIdx := 0
    rxMessage := fun _ => 0
    drMessagePresent := false
    drMessageLen := 0
    drMessage := fun _ => 0
    asyncExpectedResponse := .Idle
    mode := mode
    input := input
    txLog := []
    cbLog := [] }

/-- MLR_Modem::m_ReadByte: the one-byte unread buffer is consulted before
the uart; with nothing available the fallback value 0 is returned. -/
def m_ReadByte (m : Modem) : Nat × Modem :=
  match m.oneByteBuf with
  | some b => (b, { m with oneByteBuf := none })
  | none =>
    match m.input with
    | [] => (0, m)
    | b :: rest => (b, { m with input := rest })

/-- The scan loop of m_FlushGarbage: read uart bytes until an asterisk
(42) is found; the asterisk is unread (kept for the next message). -/
def flushScan : List Nat → Option Nat × List Nat
  | [] => (none, [])
  | b :: rest => if b = 42 then (some 42, rest) else flushScan rest

/-- MLR_Modem::m_FlushGarbage: when no byte is buffered, drop uart bytes
up to (and excluding) the next asterisk; always reset the parser state
to Start. -/
def m_FlushGarbage (m : Modem) : Modem :=
  if m.oneByteBuf = none then
    let (ob, inp) := flushScan m.input
    { m with oneByteBuf := ob, input := inp, parserState := .Start }
  else
    { m with parserState := .Start }

/-- MLR_Modem::m_ResetParser. -/
def m_ResetParser (m : Modem) : Modem :=
  { m with parserState := .Start, oneByteBuf := none }

/-- Result of one iteration of the while body of m_Parse: either a
return out of m_Parse with an event, or fall through to the next loop
iteration. -/
inductive IterOut where
  | ret : MLR_ModemCmdState → Modem → IterOut
  | cont : Modem → IterOut

/-- One iteration of the while body of MLR_Modem::m_Parse (the loop
guard, uart-bytes-available, is checked by the caller). -/
def parseIter (m0 : Modem) : IterOut :=
  match m0.parserState with
  | .Start =>
    let (b, m1) := m_ReadByte m0
    let m2 := { m1 with rxIdx := 0, rxMessage := updFn m1.rxMessage 0 b }
    if m2.rxMessage 0 = 42 then
      .cont { m2 with rxIdx := 1, parserState := .ReadCmdFirstLetter }
    else
      .ret .Parsing (m_FlushGarbage m2)
  | .ReadCmdFirstLetter =>
    let (b, m1) := m_ReadByte m0
    let m2 := { m1 with rxMessage := updFn m1.rxMessage m1.rxIdx b }
    if isupper (m2.rxMessage m2.rxIdx) then
      .cont { m2 with rxIdx := m2.rxIdx + 1, parserState := .ReadCmdSecondLetter }
    else
      .ret .Garbage (m_FlushGarbage
        (if m2.rxMessage m2.rxIdx = 42 then { m2 with oneByteBuf := some 42 } else m2))
  | .ReadCmdSecondLetter =>
    let (b, m1) := m_ReadByte m0
    let m2 := { m1 with rxMessage := updFn m1.rxMessage m1.rxIdx b }
    if isupper (m2.rxMessage 2) then
      .cont { m2 with rxIdx := m2.rxIdx + 1, parserState := .ReadCmdParam }
    else
      .ret .Garbage (m_FlushGarbage
        (if m2.rxMessage 2 = 42 then { m2 with oneByteBuf := some 42 } else m2))
  | .ReadCmdParam =>
    let (b, m1) := m_ReadByte m0
    let m2 := { m1 with rxMessage := updFn m1.rxMessage m1.rxIdx b }
    if m2.rxMessage 1 = 68 ∧ m2.rxMessage 2 = 82 ∧ m2.rxMessage 3 = 61 then
      .cont { m2 with rxIdx := m2.rxIdx + 1, parserState := .RadioDrSize }
    else if isupper (m2.rxMessage 1) ∧ isupper (m2.rxMessage 2) ∧ m2.rxMessage 3 = 61 then
      .cont { m2 with rxIdx := m2.rxIdx + 1, parserState := .ReadCmdUntilCR }
    else
      .ret .Garbage (m_FlushGarbage
        (if m2.rxMessage m2.rxIdx = 42 then { m2 with oneByteBuf := some 42 } else m2))
  | .RadioDrSize =>
    let (b, m1) := m_ReadByte m0
    let m2 := { m1 with rxMessage := updFn m1.rxMessage m1.rxIdx b, rxIdx := m1.rxIdx + 1 }
    if m2.rxIdx < 6 then
      .ret .Parsing m2
    else if isxdigit (m2.rxMessage 4) ∧ isxdigit (m2.rxMessage 5) then
      .cont { m2 with
        drMessagePresent := false
        drMessageLen := (s_ParseHex [m2.rxMessage 4, m2.rxMessage 5] (some 0)).getD 0
        rxIdx := 0
        parserState := .RadioDrPayload }
    else
      .ret .Garbage (m_FlushGarbage m2)
  | .RadioDrPayload =>
    let (b, m1) := m_ReadByte m0
    let m2 := { m1 with drMessage := updFn m1.drMessage m1.rxIdx b, rxIdx := m1.rxIdx + 1 }
    if m2.drMessageLen + 2 = m2.rxIdx then
      if m2.drMessage (m2.rxIdx - 2) = 13 ∧ m2.drMessage (m2.rxIdx - 1) = 10 then
        .ret .FinishedDrResponse { m2 with
          drMessage := updFn m2.drMessage (m2.rxIdx - 2) 0
          rxIdx := 0
          rxMessage := updFn m2.rxMessage 0 0
          drMessagePresent := true
          parserState := .Start }
      else
        .ret .Garbage (m_FlushGarbage m2)
    else
      .cont m2
  | .ReadCmdUntilCR =>
    let (b, m1) := m_ReadByte m0
    let m2 := { m1 with rxMessage := updFn m1.rxMessage m1.rxIdx b }
    if m2.rxMessage m2.rxIdx = 13 then
      if m2.rxIdx + 1 = 32 then
        .ret .Overflow { m2 with rxIdx := m2.rxIdx + 1, parserState := .Start }
      else
        .cont { m2 with rxIdx := m2.rxIdx + 1, parserState := .ReadCmdUntilLF }
    else if m2.rxMessage m2.rxIdx = 10 then
      .ret .Garbage (m_FlushGarbage m2)
    else if m2.rxMessage m2.rxIdx = 42 then
      .ret .Garbage (m_FlushGarbage { m2 with oneByteBuf := some 42 })
    else
      if m2.rxIdx + 1 = 32 then
        .ret .Overflow { m2 with rxIdx := m2.rxIdx + 1, parserState := .Start }
      else
        .cont { m2 with rxIdx := m2.rxIdx + 1 }
  | .ReadCmdUntilLF =>
    let (b, m1) := m_ReadByte m0
    let m2 := { m1 with rxMessage := updFn m1.rxMessage m1.rxIdx b }
    if m2.rxMessage m2.rxIdx = 10 then
      .ret .FinishedCmdResponse { m2 with rxIdx := m2.rxIdx - 1, parserState := .Start }
    else
      .ret .Garbage (m_FlushGarbage
        (if m2.rxMessage m2.rxIdx = 42 then { m2 with oneByteBuf := some 42 } else m2))
  | .ReadRawString =>
    .cont { m0 with parserState := .Start, rxIdx := 0 }

/-- The while loop of MLR_Modem::m_Parse, with explicit fuel.  The fuel
passed by m_Parse below always exceeds the possible number of loop
iterations, so the fuel-exhaustion branch is never taken. -/
def m_ParseLoop : Nat → Modem → MLR_ModemCmdState × Modem
  | 0, m => (.Parsing, m)
  | fuel + 1, m =>
    if m.input = [] then (.Parsing, m)
    else
      match parseIter m with
      | .ret c m' => (c, m')
      | .cont m' => m_ParseLoop fuel m'

/-- MLR_Modem::m_Parse: run the state machine while uart bytes are
available; returns the first event (or Parsing when input runs dry). -/
def m_Parse (m : Modem) : MLR_ModemCmdState × Modem :=
  m_ParseLoop (m.input.length + 3) m

/-- Repeated calls of m_Parse until the uart queue is empty, collecting
every returned event in order. -/
def parseAll : Nat → Modem → List MLR_ModemCmdState × Modem
  | 0, m => ([], m)
  | fuel + 1, m =>
    if m.input = [] then ([], m)
    else
      let (c, m') := m_Parse m
      let (cs, m'') := parseAll fuel m'
      (c :: cs, m'')

/-- Feed a whole byte stream to a freshly reset driver and collect the
events of every m_Parse call. -/
def runParser (input : List Nat) : List MLR_ModemCmdState × Modem :=
  parseAll (input.length + 1) (initModem .FskCmd input)

/-- Number of occurrences of an event in an event list. -/
def countEvt (e : MLR_ModemCmdState) : List MLR_ModemCmdState → Nat
  | [] => 0
  | c :: cs => (if c = e then 1 else 0) + countEvt e cs

/-- The next batch of uart bytes arriving at a wait-loop tick. -/
def nextBatch : List (List Nat) → List Nat × List (List Nat)
  | [] => ([], [])
  | b :: r => (b, r)

/-- The while loop of MLR_Modem::m_WaitCmdResponse.  One tick is one loop
iteration (the C++ body ends with a one-millisecond delay); at the start
of each tick the bytes arriving during that millisecond are appended to
the uart queue.  A finished data-reception frame is delivered to the
callback (recorded in cbLog) and the wait continues; Garbage or Overflow
fail immediately; tick exhaustion is the deadline timeout, which resets
the parser state to Start. -/
def m_WaitLoop : Nat → Modem → List (List Nat) → MLR_Modem_Error × Modem × List (List Nat)
  | 0, m, arr => (.Fail, { m with parserState := .Start }, arr)
  | t + 1, m, arr =>
    let (batch, arr') := nextBatch arr
    let m0 := { m with input := m.input ++ batch }
    match m_Parse m0 with
    | (.Parsing, m') => m_WaitLoop t m' arr'
    | (.FinishedCmdResponse, m') => (.Ok, m', arr')
    | (.FinishedDrResponse, m') =>
      m_WaitLoop t { m' with cbLog := m'.cbLog ++ [readOut m'.drMessage m'.drMessageLen] } arr'
    | (_, m') => (.Fail, m', arr')

/-- MLR_Modem::m_WaitCmdResponse with deadline ms milliseconds: the loop
body runs once per elapsed millisecond until the deadline passes. -/
def m_WaitCmdResponse (ms : Nat) (m : Modem) (arr : List (List Nat)) :
    MLR_Modem_Error × Modem × List (List Nat) :=
  m_WaitLoop (ms + 1) m arr

/-- strncmp 0-result against a NUL-free pattern: the buffer bytes from
index i onward match the pattern bytes. -/
def pfxMatch (f : Nat → Nat) : List Nat → Nat → Bool
  | [], _ => true
  | c :: cs, i => f i = c && pfxMatch f cs (i + 1)

/-- The bytes of the buffer from index i up to (excluding) the first NUL
byte, with fuel bounding the scan. -/
def cstr (f : Nat → Nat) : Nat → Nat → List Nat
  | _, 0 => []
  | i, fuel + 1 => if f i = 0 then [] else f i :: cstr f (i + 1) fuel

/-- Leading whitespace of a byte list: count and remainder. -/
def dropWsCount : List Nat → Nat × List Nat
  | [] => (0, [])
  | c :: cs => if isspace c then
      let (n, r) := dropWsCount cs
      (n + 1, r)
    else (0, c :: cs)

/-- Longest leading run of decimal digits of a byte list. -/
def splitDigits : List Nat → List Nat × List Nat
  | [] => ([], [])
  | c :: cs => if isdigit c then
      let (d, r) := splitDigits cs
      (c :: d, r)
    else ([], c :: cs)

/-- Numeric value of a list of decimal digit bytes. -/
def decVal (l : List Nat) : Nat := l.foldl (fun a c => a * 10 + (c - 48)) 0

/-- C strtol base 10 on a NUL-terminated byte list: skip whitespace,
optional sign, then digits.  Returns the value and the number of bytes
consumed up to the end pointer; with no digits, no conversion is
performed and the end pointer equals the start. -/
def strtolList (l : List Nat) : Int × Nat :=
  let (w, l1) := dropWsCount l
  match l1 with
  | 45 :: r =>
    let (ds, _) := splitDigits r
    if ds = [] then (0, 0) else (-(decVal ds : Int), w + 1 + ds.length)
  | 43 :: r =>
    let (ds, _) := splitDigits r
    if ds = [] then (0, 0) else ((decVal ds : Int), w + 1 + ds.length)
  | r =>
    let (ds, _) := splitDigits r
    if ds = [] then (0, 0) else ((decVal ds : Int), w + ds.length)

/-- MLR_Modem::m_HandleMessage_WR: the received frame must be exactly
the six bytes of the write acknowledgement (*WR=PS). -/
def m_HandleMessage_WR (m : Modem) : MLR_Modem_Error × Modem :=
  if m.rxIdx = 6 ∧ pfxMatch m.rxMessage [42, 87, 82, 61, 80, 83] 0 then (.Ok, m)
  else (.Fail, m)

/-- MLR_Modem::m_HandleMessageHexByte: frame length must equal
responseLen, the frame must start with the given response pattern, and
the two bytes after the pattern are decoded as one hex byte.  The
decoded value (the write through pValue) is returned as an option. -/
def m_HandleMessageHexByte (m : Modem) (responseLen : Nat) (responsePfx : List Nat) :
    MLR_Modem_Error × Option Nat × Modem :=
  if m.rxIdx ≠ responseLen then (.Fail, none, m)
  else if pfxMatch m.rxMessage responsePfx 0 then
    match s_ParseHex [m.rxMessage responsePfx.length, m.rxMessage (responsePfx.length + 1)]
        (some 0) with
    | some v => (.Ok, some v, m)
    | none => (.Fail, none, m)
  else (.Fail, none, m)

/-- MLR_Modem::m_HandleMessageHexWord: like m_HandleMessageHexByte with
four hex digits. -/
def m_HandleMessageHexWord (m : Modem) (responseLen : Nat) (responsePfx : List Nat) :
    MLR_Modem_Error × Option Nat × Modem :=
  if m.rxIdx ≠ responseLen then (.Fail, none, m)
  else if pfxMatch m.rxMessage responsePfx 0 then
    match s_ParseHex
        [m.rxMessage responsePfx.length, m.rxMessage (responsePfx.length + 1),
         m.rxMessage (responsePfx.length + 2), m.rxMessage (responsePfx.length + 3)]
        (some 0) with
    | some v => (.Ok, some (v % 65536), m)
    | none => (.Fail, none, m)
  else (.Fail, none, m)

/-- Shared body of m_HandleMessage_RS and m_HandleMessage_RA: check the
length range 10..11 and the four-byte response pattern, check the
trailing dBm, overwrite the d with a NUL byte in the frame buffer, and
parse the signed decimal with strtol, requiring the end pointer to land
exactly on the inserted NUL. -/
def handleMessageDbm (m : Modem) (pfx : List Nat) : MLR_Modem_Error × Option Int × Modem :=
  let len := m.rxIdx
  if len < 10 ∨ 11 < len then (.Fail, none, m)
  else if pfxMatch m.rxMessage pfx 0 then
    if m.rxMessage (len - 3) = 100 ∧ m.rxMessage (len - 2) = 66 ∧ m.rxMessage (len - 1) = 109 then
      let buf := updFn m.rxMessage (len - 3) 0
      let m' := { m with rxMessage := buf }
      let (v, consumed) := strtolList (cstr buf 4 32)
      if 4 + consumed ≠ len - 3 then (.Fail, none, m')
      else (.Ok, some v, m')
    else (.Fail, none, m)
  else (.Fail, none, m)

/-- MLR_Modem::m_HandleMessage_RS (*RS=...dBm). -/
def m_HandleMessage_RS (m : Modem) : MLR_Modem_Error × Option Int × Modem :=
  handleMessageDbm m [42, 82, 83, 61]

/-- MLR_Modem::m_HandleMessage_RA (*RA=...dBm). -/
def m_HandleMessage_RA (m : Modem) : MLR_Modem_Error × Option Int × Modem :=
  handleMessageDbm m [42, 82, 65, 61]

/-- MLR_Modem::m_HandleMessage_SN (*SN=S0000001 or *SN=00000001): length
must be 12; when the byte after the pattern is not a digit it is taken
as a one-letter lead and seven digits follow, otherwise eight digits. -/
def m_HandleMessage_SN (m : Modem) : MLR_Modem_Error × Option Nat × Modem :=
  if m.rxIdx = 12 ∧ pfxMatch m.rxMessage [42, 83, 78, 61] 0 then
    let startIdx := if isdigit (m.rxMessage 4) then 4 else 5
    let hexLen := if isdigit (m.rxMessage 4) then 8 else 7
    match s_ParseDec ((List.range hexLen).map fun i => m.rxMessage (startIdx + i)) (some 0) with
    | some v => (.Ok, some v, m)
    | none => (.Fail, none, m)
  else (.Fail, none, m)

/-- MLR_Modem::m_HandleMessage_IZ: the frame must be exactly *IZ=OK. -/
def m_HandleMessage_IZ (m : Modem) : MLR_Modem_Error × Modem :=
  if m.rxIdx = 6 ∧ pfxMatch m.rxMessage [42, 73, 90, 61, 79, 75] 0 then (.Ok, m)
  else (.Fail, m)

/-- MLR_Modem::m_ClearOneLine: drop uart bytes through the first LF
(reads the uart directly, bypassing the one-byte unread buffer). -/
def dropLine : List Nat → List Nat
  | [] => []
  | b :: rest => if b = 10 then rest else dropLine rest

/-- Apply m_ClearOneLine to the driver state. -/
def m_ClearOneLine (m : Modem) : Modem := { m with input := dropLine m.input }

/-- Append written bytes to the transmit log (m_WriteString / uart
write). -/
def writeOut (m : Modem) (bytes : List Nat) : Modem := { m with txLog := m.txLog ++ bytes }

/-- MLR_Modem::m_SetByteValue: busy gate, format the set command
(@XX<2 hex digits><optional /W>CRLF), wait for the response (consuming
the *WR=PS acknowledgement first when saving), decode the echoed hex
byte and require it to equal the requested value. -/
def m_SetByteValue (m : Modem) (cmdPfx : List Nat) (value : Nat) (saveValue : Bool)
    (respPfx : List Nat) (respLen : Nat) (arr : List (List Nat)) :
    MLR_Modem_Error × Modem × List (List Nat) :=
  if m.asyncExpectedResponse ≠ .Idle then (.Busy, m, arr)
  else
    let m := writeOut m (cmdPfx ++ toHex2 value ++ (if saveValue then [47, 87] else []) ++ [13, 10])
    let (rv, m, arr) := m_WaitCmdResponse 500 m arr
    let (rv, m, arr) :=
      if rv = .Ok ∧ saveValue then
        let (rv2, m2) := m_HandleMessage_WR m
        if rv2 = .Ok then m_WaitCmdResponse 500 m2 arr else (rv2, m2, arr)
      else (rv, m, arr)
    let (rv, responseVal, m) :=
      if rv = .Ok then
        let (rv2, v, m2) := m_HandleMessageHexByte m respLen respPfx
        (rv2, v.getD 0, m2)
      else (rv, 0, m)
    if rv = .Ok ∧ responseVal ≠ value then (.Fail, m, arr) else (rv, m, arr)

/-- MLR_Modem::m_GetByteValue: busy gate, send the get command, wait,
decode one hex byte; the value written through pValue is returned as an
option (written only on a successful decode). -/
def m_GetByteValue (m : Modem) (cmdString : List Nat) (respPfx : List Nat) (respLen : Nat)
    (arr : List (List Nat)) : MLR_Modem_Error × Option Nat × Modem × List (List Nat) :=
  if m.asyncExpectedResponse ≠ .Idle then (.Busy, none, m, arr)
  else
    let m := writeOut m cmdString
    let (rv, m, arr) := m_WaitCmdResponse 500 m arr
    if rv = .Ok then
      let (rv2, v, m2) := m_HandleMessageHexByte m respLen respPfx
      (rv2, v, m2, arr)
    else (rv, none, m, arr)

/-- MLR_Modem::SetChannel: channel range 0x07..0x2E is validated before
anything else (in particular before the busy gate inside
m_SetByteValue). -/
def SetChannel (m : Modem) (channel : Nat) (saveValue : Bool) (arr : List (List Nat)) :
    MLR_Modem_Error × Modem × List (List Nat) :=
  if channel < 7 ∨ 46 < channel then (.InvalidArg, m, arr)
  else m_SetByteValue m [64, 67, 72] channel saveValue [42, 67, 72, 61] 6 arr

/-- MLR_Modem::GetChannel. -/
def GetChannel (m : Modem) (arr : List (List Nat)) :
    MLR_Modem_Error × Option Nat × Modem × List (List Nat) :=
  m_GetByteValue m [64, 67, 72, 13, 10] [42, 67, 72, 61] 6 arr

/-- MLR_Modem::SetMode: the unsupported binary modes are rejected before
the busy gate; on success the mode is cached and one raw mode line is
cleared from the uart. -/
def SetMode (m : Modem) (mode : MLR_ModemMode) (saveValue : Bool) (arr : List (List Nat)) :
    MLR_Modem_Error × Modem × List (List Nat) :=
  if mode = .FskBin ∨ mode = .LoRaBin then (.InvalidArg, m, arr)
  else
    let modeVal : Nat := match mode with
      | .FskBin => 0 | .FskCmd => 1 | .LoRaBin => 2 | .LoRaCmd => 3
    let (rv, m, arr) := m_SetByteValue m [64, 77, 79] modeVal saveValue [42, 77, 79, 61] 6 arr
    if rv = .Ok then (rv, m_ClearOneLine { m with mode := mode }, arr) else (rv, m, arr)

/-- MLR_Modem::GetMode: the decoded raw byte is written through a
reinterpret_cast pointer to the MLR_ModemMode out-parameter; the option
returned here is that raw byte. -/
def GetMode (m : Modem) (arr : List (List Nat)) :
    MLR_Modem_Error × Option Nat × Modem × List (List Nat) :=
  m_GetByteValue m [64, 77, 79, 13, 10] [42, 77, 79, 61] 6 arr

/-- MLR_Modem::SetSpreadFactor: the raw factor value is range checked
(0..5) before the busy gate. -/
def SetSpreadFactor (m : Modem) (sfValue : Nat) (saveValue : Bool) (arr : List (List Nat)) :
    MLR_Modem_Error × Modem × List (List Nat) :=
  if 5 < sfValue then (.InvalidArg, m, arr)
  else m_SetByteValue m [64, 83, 70] sfValue saveValue [42, 83, 70, 61] 6 arr

/-- MLR_Modem::GetSpreadFactor: like GetMode, the raw decoded byte is
written through a reinterpret_cast pointer to the enum out-parameter. -/
def GetSpreadFactor (m : Modem) (arr : List (List Nat)) :
    MLR_Modem_Error × Option Nat × Modem × List (List Nat) :=
  m_GetByteValue m [64, 83, 70, 13, 10] [42, 83, 70, 61] 6 arr

/-- MLR_Modem::SetEquipmentID. -/
def SetEquipmentID (m : Modem) (ei : Nat) (saveValue : Bool) (arr : List (List Nat)) :
    MLR_Modem_Error × Modem × List (List Nat) :=
  m_SetByteValue m [64, 69, 73] ei saveValue [42, 69, 73, 61] 6 arr

/-- MLR_Modem::GetEquipmentID. -/
def GetEquipmentID (m : Modem) (arr : List (List Nat)) :
    MLR_Modem_Error × Option Nat × Modem × List (List Nat) :=
  m_GetByteValue m [64, 69, 73, 13, 10] [42, 69, 73, 61] 6 arr

/-- MLR_Modem::SetDestinationID. -/
def SetDestinationID (m : Modem) (di : Nat) (saveValue : Bool) (arr : List (List Nat)) :
    MLR_Modem_Error × Modem × List (List Nat) :=
  m_SetByteValue m [64, 68, 73] di saveValue [42, 68, 73, 61] 6 arr

/-- MLR_Modem::GetDestinationID. -/
def GetDestinationID (m : Modem) (arr : List (List Nat)) :
    MLR_Modem_Error × Option Nat × Modem × List (List Nat) :=
  m_GetByteValue m [64, 68, 73, 13, 10] [42, 68, 73, 61] 6 arr

/-- MLR_Modem::SetGroupID. -/
def SetGroupID (m : Modem) (gi : Nat) (saveValue : Bool) (arr : List (List Nat)) :
    MLR_Modem_Error × Modem × List (List Nat) :=
  m_SetByteValue m [64, 71, 73] gi saveValue [42, 71, 73, 61] 6 arr

/-- MLR_Modem::GetGroupID. -/
def GetGroupID (m : Modem) (arr : List (List Nat)) :
    MLR_Modem_Error × Option Nat × Modem × List (List Nat) :=
  m_GetByteValue m [64, 71, 73, 13, 10] [42, 71, 73, 61] 6 arr

/-- MLR_Modem::GetUserID: busy gate, send @UI, wait, decode a hex
word. -/
def GetUserID (m : Modem) (arr : List (List Nat)) :
    MLR_Modem_Error × Option Nat × Modem × List (List Nat) :=
  if m.asyncExpectedResponse ≠ .Idle then (.Busy, none, m, arr)
  else
    let m := writeOut m [64, 85, 73, 13, 10]
    let (rv, m, arr) := m_WaitCmdResponse 500 m arr
    if rv = .Ok then
      let (rv2, v, m2) := m_HandleMessageHexWord m 8 [42, 85, 73, 61]
      (rv2, v, m2, arr)
    else (rv, none, m, arr)

/-- MLR_Modem::GetRssiLastRx: busy gate, send @RS, wait, decode the dBm
response. -/
def GetRssiLastRx (m : Modem) (arr : List (List Nat)) :
    MLR_Modem_Error × Option Int × Modem × List (List Nat) :=
  if m.asyncExpectedResponse ≠ .Idle then (.Busy, none, m, arr)
  else
    let m := writeOut m [64, 82, 83, 13, 10]
    let (rv, m, arr) := m_WaitCmdResponse 500 m arr
    if rv = .Ok then
      let (rv2, v, m2) := m_HandleMessage_RS m
      (rv2, v, m2, arr)
    else (rv, none, m, arr)

/-- MLR_Modem::GetRssiCurrentChannel: busy gate, send @RA, wait, decode
the dBm response. -/
def GetRssiCurrentChannel (m : Modem) (arr : List (List Nat)) :
    MLR_Modem_Error × Option Int × Modem × List (List Nat) :=
  if m.asyncExpectedResponse ≠ .Idle then (.Busy, none, m, arr)
  else
    let m := writeOut m [64, 82, 65, 13, 10]
    let (rv, m, arr) := m_WaitCmdResponse 500 m arr
    if rv = .Ok then
      let (rv2, v, m2) := m_HandleMessage_RA m
      (rv2, v, m2, arr)
    else (rv, none, m, arr)

/-- MLR_Modem::SetCarrierSenseRssiOutput. -/
def SetCarrierSenseRssiOutput (m : Modem) (ciValue : Nat) (saveValue : Bool)
    (arr : List (List Nat)) : MLR_Modem_Error × Modem × List (List Nat) :=
  m_SetByteValue m [64, 67, 73] ciValue saveValue [42, 67, 73, 61] 6 arr

/-- MLR_Modem::GetCarrierSenseRssiOutput. -/
def GetCarrierSenseRssiOutput (m : Modem) (arr : List (List Nat)) :
    MLR_Modem_Error × Option Nat × Modem × List (List Nat) :=
  m_GetByteValue m [64, 67, 73, 13, 10] [42, 67, 73, 61] 6 arr

/-- MLR_Modem::GetSerialNumber: busy gate, send @SN, wait, decode. -/
def GetSerialNumber (m : Modem) (arr : List (List Nat)) :
    MLR_Modem_Error × Option Nat × Modem × List (List Nat) :=
  if m.asyncExpectedResponse ≠ .Idle then (.Busy, none, m, arr)
  else
    let m := writeOut m [64, 83, 78, 13, 10]
    let (rv, m, arr) := m_WaitCmdResponse 500 m arr
    if rv = .Ok then
      let (rv2, v, m2) := m_HandleMessage_SN m
      (rv2, v, m2, arr)
    else (rv, none, m, arr)

/-- MLR_Modem::FactoryReset: busy gate; send @IZ; expect *WR=PS, then
*IZ=OK, then clear one raw mode line. -/
def FactoryReset (m : Modem) (arr : List (List Nat)) :
    MLR_Modem_Error × Modem × List (List Nat) :=
  if m.asyncExpectedResponse ≠ .Idle then (.Busy, m, arr)
  else
    let m := writeOut m [64, 73, 90, 13, 10]
    let (rv, m, arr) := m_WaitCmdResponse 500 m arr
    let (rv, m) := if rv = .Ok then m_HandleMessage_WR m else (rv, m)
    let (rv, m, arr) := if rv = .Ok then m_WaitCmdResponse 500 m arr else (rv, m, arr)
    let (rv, m) := if rv = .Ok then m_HandleMessage_IZ m else (rv, m)
    if rv = .Ok then (rv, m_ClearOneLine m, arr) else (rv, m, arr)

/-- MLR_Modem::GetBaudRate. -/
def GetBaudRate (m : Modem) (arr : List (List Nat)) :
    MLR_Modem_Error × Option Nat × Modem × List (List Nat) :=
  m_GetByteValue m [64, 66, 82, 13, 10] [42, 66, 82, 61] 6 arr

/-- MLR_Modem::SetBaudRate: the baud rate in bits per second is mapped
to the modem code before the busy gate; unknown rates are rejected. -/
def SetBaudRate (m : Modem) (baudRate : Nat) (saveValue : Bool) (arr : List (List Nat)) :
    MLR_Modem_Error × Modem × List (List Nat) :=
  match baudRate with
  | 1200 => m_SetByteValue m [64, 66, 82] 18 saveValue [42, 66, 82, 61] 6 arr
  | 2400 => m_SetByteValue m [64, 66, 82] 36 saveValue [42, 66, 82, 61] 6 arr
  | 4800 => m_SetByteValue m [64, 66, 82] 72 saveValue [42, 66, 82, 61] 6 arr
  | 9600 => m_SetByteValue m [64, 66, 82] 150 saveValue [42, 66, 82, 61] 6 arr
  | 19200 => m_SetByteValue m [64, 66, 82] 25 saveValue [42, 66, 82, 61] 6 arr
  | _ => (.InvalidArg, m, arr)

/-- MLR_Modem::SendRawCommand: a zero buffer size is rejected before the
busy gate; on success the raw response line (CRLF stripped) is returned,
unless it does not fit the caller buffer. -/
def SendRawCommand (m : Modem) (command : List Nat) (bufferSize : Nat) (timeoutMs : Nat)
    (arr : List (List Nat)) : MLR_Modem_Error × Option (List Nat) × Modem × List (List Nat) :=
  if bufferSize = 0 then (.InvalidArg, none, m, arr)
  else if m.asyncExpectedResponse ≠ .Idle then (.Busy, none, m, arr)
  else
    let m := writeOut m command
    let (rv, m, arr) := m_WaitCmdResponse timeoutMs m arr
    if rv ≠ .Ok then (rv, none, m, arr)
    else if bufferSize ≤ m.rxIdx then (.BufferTooSmall, none, m, arr)
    else (.Ok, some (readOut m.rxMessage m.rxIdx), m, arr)

/-- MLR_Modem::SendRawCommandAsync: busy gate, write the command, arm
the generic-response expectation. -/
def SendRawCommandAsync (m : Modem) (command : List Nat) (arr : List (List Nat)) :
    MLR_Modem_Error × Modem × List (List Nat) :=
  if m.asyncExpectedResponse ≠ .Idle then (.Busy, m, arr)
  else
    let m := writeOut m command
    (.Ok, { m with asyncExpectedResponse := .GenericResponse }, arr)

/-- MLR_Modem::TransmitData: busy gate; write @DT<2-hex-digit len>, the
payload, CRLF; wait for the transmission echo and check the echoed
length; then wait for the information response (15000 ms deadline in
LoRa command mode, 11 ms otherwise) and map it as the source does. -/
def TransmitData (m : Modem) (pMsg : List Nat) (len : Nat) (arr : List (List Nat)) :
    MLR_Modem_Error × Modem × List (List Nat) :=
  if m.asyncExpectedResponse ≠ .Idle then (.Busy, m, arr)
  else
    let m := writeOut m ([64, 68, 84] ++ toHex2 len ++ pMsg ++ [13, 10])
    let (rv, m, arr) := m_WaitCmdResponse 500 m arr
    let (rv, transmissionResponse, m) :=
      if rv = .Ok then
        let (rv2, v, m2) := m_HandleMessageHexByte m 6 [42, 68, 84, 61]
        (rv2, v.getD 0, m2)
      else (rv, 0, m)
    let rv := if rv = .Ok ∧ transmissionResponse ≠ len then .Fail else rv
    let (rv, m, arr) :=
      if rv = .Ok then
        if m.mode = .LoRaCmd then m_WaitCmdResponse 15000 m arr
        else m_WaitCmdResponse 11 m arr
      else (rv, m, arr)
    if m.mode = .LoRaCmd then
      let (rv, informationResponse, m) :=
        if rv = .Ok then
          let (rv2, v, m2) := m_HandleMessageHexByte m 6 [42, 73, 82, 61]
          (rv2, v.getD 0, m2)
        else (rv, 0, m)
      if rv ≠ .Ok then (.Fail, m, arr)
      else if informationResponse = 2 ∨ informationResponse = 1 then (.FailLbt, m, arr)
      else (rv, m, arr)
    else
      if rv ≠ .Ok then (.Ok, m, arr)
      else
        let (rv2, v, m2) := m_HandleMessageHexByte m 6 [42, 73, 82, 61]
        if rv2 ≠ .Ok then (.Fail, m2, arr)
        else if v.getD 0 = 1 then (.FailLbt, m2, arr)
        else (.Ok, m2, arr)

/-- MLR_Modem::TransmitDataFireAndForget: a zero length is rejected
before the busy gate; after the length echo is verified the
information-response expectation is armed instead of being awaited. -/
def TransmitDataFireAndForget (m : Modem) (pMsg : List Nat) (len : Nat)
    (arr : List (List Nat)) : MLR_Modem_Error × Modem × List (List Nat) :=
  if len = 0 then (.InvalidArg, m, arr)
  else if m.asyncExpectedResponse ≠ .Idle then (.Busy, m, arr)
  else
    let m := writeOut m ([64, 68, 84] ++ toHex2 len ++ pMsg ++ [13, 10])
    let (rv, m, arr) := m_WaitCmdResponse 500 m arr
    let (rv, transmissionResponse, m) :=
      if rv = .Ok then
        let (rv2, v, m2) := m_HandleMessageHexByte m 6 [42, 68, 84, 61]
        (rv2, v.getD 0, m2)
      else (rv, 0, m)
    let rv := if rv = .Ok ∧ transmissionResponse ≠ len then .Fail else rv
    if rv = .Ok then (rv, { m with asyncExpectedResponse := .MLR_Modem_DtIr }, arr)
    else (rv, m, arr)

/-- MLR_Modem::GetRssiCurrentChannelAsync: busy gate, send @RA, arm the
expectation. -/
def GetRssiCurrentChannelAsync (m : Modem) (arr : List (List Nat)) :
    MLR_Modem_Error × Modem × List (List Nat) :=
  if m.asyncExpectedResponse ≠ .Idle then (.Busy, m, arr)
  else
    let m := writeOut m [64, 82, 65, 13, 10]
    (.Ok, { m with asyncExpectedResponse := .RssiCurrentChannel }, arr)

/-- MLR_Modem::GetSerialNumberAsync: busy gate, send @SN, arm the
expectation. -/
def GetSerialNumberAsync (m : Modem) (arr : List (List Nat)) :
    MLR_Modem_Error × Modem × List (List Nat) :=
  if m.asyncExpectedResponse ≠ .Idle then (.Busy, m, arr)
  else
    let m := writeOut m [64, 83, 78, 13, 10]
    (.Ok, { m with asyncExpectedResponse := .SerialNumber }, arr)

/-! ## Buffer lemmas -/

theorem updFn_at (f : Nat → Nat) (i v : Nat) : updFn f i v i = v := by
  simp [updFn]

theorem updFn_ne (f : Nat → Nat) (i v j : Nat) (h : j ≠ i) : updFn f i v j = f j := by
  simp [updFn, h]

theorem writeList_out (l : List Nat) : ∀ (f : Nat → Nat) (k j : Nat), j < k →
    writeList f k l j = f j := by
  induction l with
  | nil => intro f k j _; rfl
  | cons c cs ih =>
    intro f k j hj
    show writeList (updFn f k c) (k + 1) cs j = f j
    rw [ih (updFn f k c) (k + 1) j (by omega)]
    exact updFn_ne f k c j (by omega)

theorem writeList_in (l : List Nat) : ∀ (f : Nat → Nat) (k j : Nat), k ≤ j →
    j < k + l.length → writeList f k l j = l.getD (j - k) 0 := by
  induction l with
  | nil => intro f k j h1 h2; simp at h2; omega
  | cons c cs ih =>
    intro f k j h1 h2
    show writeList (updFn f k c) (k + 1) cs j = (c :: cs).getD (j - k) 0
    rcases Nat.eq_or_lt_of_le h1 with heq | hlt
    · subst heq
      rw [writeList_out cs (updFn f k c) (k + 1) k (by omega), updFn_at]
      simp
    · rw [ih (updFn f k c) (k + 1) j (by omega) (by simp at h2 ⊢; omega)]
      have : j - k = (j - (k + 1)) + 1 := by omega
      rw [this]
      simp

theorem writeList_append (l1 l2 : List Nat) : ∀ (f : Nat → Nat) (k : Nat),
    writeList f k (l1 ++ l2) = writeList (writeList f k l1) (k + l1.length) l2 := by
  induction l1 with
  | nil => intro f k; simp [writeList]
  | cons c cs ih =>
    intro f k
    show writeList (updFn f k c) (k + 1) (cs ++ l2) = _
    rw [ih (updFn f k c) (k + 1)]
    show _ = writeList (writeList (updFn f k c) (k + 1) cs) (k + (cs.length + 1)) l2
    have : k + 1 + cs.length = k + (cs.length + 1) := by omega
    rw [this]

theorem readOut_length (f : Nat → Nat) (n : Nat) : (readOut f n).length = n := by
  simp [readOut]

theorem readOut_eq (f : Nat → Nat) (l : List Nat)
    (h : ∀ i, i < l.length → f i = l.getD i 0) : readOut f l.length = l := by
  apply List.ext_getElem
  · simp [readOut]
  · intro i h1 h2
    simp only [readOut, List.getElem_map, List.getElem_range]
    rw [h i h2]
    exact List.getD_eq_getElem l 0 h2

/-! ## Parser step lemmas -/

theorem m_ParseLoop_cont (f : Nat) (m m' : Modem) (hin : m.input ≠ [])
    (h : parseIter m = .cont m') : m_ParseLoop (f + 1) m = m_ParseLoop f m' := by
  simp [m_ParseLoop, hin, h]

theorem m_ParseLoop_ret (f : Nat) (m m' : Modem) (c : MLR_ModemCmdState) (hin : m.input ≠ [])
    (h : parseIter m = .ret c m') : m_ParseLoop (f + 1) m = (c, m') := by
  simp [m_ParseLoop, hin, h]

theorem parseIter_untilCR_cont (m : Modem) (c : Nat) (rest : List Nat)
    (hs : m.parserState = .ReadCmdUntilCR) (hb : m.oneByteBuf = none)
    (hin : m.input = c :: rest) (hc13 : c ≠ 13) (hc10 : c ≠ 10) (hc42 : c ≠ 42)
    (hk : m.rxIdx + 1 ≠ 32) :
    parseIter m = .cont { m with
      input := rest
      rxMessage := updFn m.rxMessage m.rxIdx c
      rxIdx := m.rxIdx + 1 } := by
  obtain ⟨ps, ob, ri, rx, dp, dl, dm, ae, md, inp, tx, cb⟩ := m
  simp only at hs hb hin hk
  subst hs; subst hb; subst hin
  simp [parseIter, m_ReadByte, updFn_at, hc13, hc10, hc42, hk]

theorem parseIter_start_star (m : Modem) (rest : List Nat)
    (hs : m.parserState = .Start) (hb : m.oneByteBuf = none) (hin : m.input = 42 :: rest) :
    parseIter m = .cont { m with
      input := rest
      rxIdx := 1
      rxMessage := updFn m.rxMessage 0 42
      parserState := .ReadCmdFirstLetter } := by
  obtain ⟨ps, ob, ri, rx, dp, dl, dm, ae, md, inp, tx, cb⟩ := m
  simp only at hs hb hin
  subst hs; subst hb; subst hin
  simp [parseIter, m_ReadByte, updFn_at]

theorem parseIter_start_star_buf (m : Modem)
    (hs : m.parserState = .Start) (hb : m.oneByteBuf = some 42) :
    parseIter m = .cont { m with
      oneByteBuf := none
      rxIdx := 1
      rxMessage := updFn m.rxMessage 0 42
      parserState := .ReadCmdFirstLetter } := by
  obtain ⟨ps, ob, ri, rx, dp, dl, dm, ae, md, inp, tx, cb⟩ := m
  simp only at hs hb
  subst hs; subst hb
  simp [parseIter, m_ReadByte, updFn_at]

theorem parseIter_start_garbage (m : Modem) (c : Nat) (rest : List Nat)
    (hs : m.parserState = .Start) (hb : m.oneByteBuf = none) (hin : m.input = c :: rest)
    (hc : c ≠ 42) :
    parseIter m = .ret .Parsing { m with
      input := (flushScan rest).2
      oneByteBuf := (flushScan rest).1
      rxIdx := 0
      rxMessage := updFn m.rxMessage 0 c
      parserState := .Start } := by
  obtain ⟨ps, ob, ri, rx, dp, dl, dm, ae, md, inp, tx, cb⟩ := m
  simp only at hs hb hin
  subst hs; subst hb; subst hin
  simp [parseIter, m_ReadByte, m_FlushGarbage, updFn_at, hc]

theorem parseIter_firstLetter_upper (m : Modem) (c : Nat) (rest : List Nat)
    (hs : m.parserState = .ReadCmdFirstLetter) (hb : m.oneByteBuf = none)
    (hin : m.input = c :: rest) (hup : isupper c = true) :
    parseIter m = .cont { m with
      input := rest
      rxMessage := updFn m.rxMessage m.rxIdx c
      rxIdx := m.rxIdx + 1
      parserState := .ReadCmdSecondLetter } := by
  obtain ⟨ps, ob, ri, rx, dp, dl, dm, ae, md, inp, tx, cb⟩ := m
  simp only at hs hb hin
  subst hs; subst hb; subst hin
  simp [parseIter, m_ReadByte, updFn_at, hup]

theorem parseIter_secondLetter_upper (m : Modem) (c : Nat) (rest : List Nat)
    (hs : m.parserState = .ReadCmdSecondLetter) (hb : m.oneByteBuf = none)
    (hin : m.input = c :: rest) (hri : m.rxIdx = 2) (hup : isupper c = true) :
    parseIter m = .cont { m with
      input := rest
      rxMessage := updFn m.rxMessage 2 c
      rxIdx := 3
      parserState := .ReadCmdParam } := by
  obtain ⟨ps, ob, ri, rx, dp, dl, dm, ae, md, inp, tx, cb⟩ := m
  simp only at hs hb hin hri
  subst hs; subst hb; subst hin; subst hri
  simp [parseIter, m_ReadByte, updFn_at, hup]

theorem parseIter_param_cmd (m : Modem) (rest : List Nat)
    (hs : m.parserState = .ReadCmdParam) (hb : m.oneByteBuf = none)
    (hin : m.input = 61 :: rest) (hri : m.rxIdx = 3)
    (hnotdr : ¬(m.rxMessage 1 = 68 ∧ m.rxMessage 2 = 82))
    (h1 : isupper (m.rxMessage 1) = true) (h2 : isupper (m.rxMessage 2) = true) :
    parseIter m = .cont { m with
      input := rest
      rxMessage := updFn m.rxMessage 3 61
      rxIdx := 4
      parserState := .ReadCmdUntilCR } := by
  obtain ⟨ps, ob, ri, rx, dp, dl, dm, ae, md, inp, tx, cb⟩ := m
  simp only at hs hb hin hri hnotdr h1 h2
  subst hs; subst hb; subst hin; subst hri
  simp [parseIter, m_ReadByte, updFn_at, updFn_ne, h1, h2, hnotdr]

theorem parseIter_param_dr (m : Modem) (rest : List Nat)
    (hs : m.parserState = .ReadCmdParam) (hb : m.oneByteBuf = none)
    (hin : m.input = 61 :: rest) (hri : m.rxIdx = 3)
    (h1 : m.rxMessage 1 = 68) (h2 : m.rxMessage 2 = 82) :
    parseIter m = .cont { m with
      input := rest
      rxMessage := updFn m.rxMessage 3 61
      rxIdx := 4
      parserState := .RadioDrSize } := by
  obtain ⟨ps, ob, ri, rx, dp, dl, dm, ae, md, inp, tx, cb⟩ := m
  simp only at hs hb hin hri h1 h2
  subst hs; subst hb; subst hin; subst hri
  simp [parseIter, m_ReadByte, updFn_at, updFn_ne, h1, h2]

theorem parseIter_drSize_first (m : Modem) (d : Nat) (rest : List Nat)
    (hs : m.parserState = .RadioDrSize) (hb : m.oneByteBuf = none)
    (hin : m.input = d :: rest) (hri : m.rxIdx = 4) :
    parseIter m = .ret .Parsing { m with
      input := rest
      rxMessage := updFn m.rxMessage 4 d
      rxIdx := 5 } := by
  obtain ⟨ps, ob, ri, rx, dp, dl, dm, ae, md, inp, tx, cb⟩ := m
  simp only at hs hb hin hri
  subst hs; subst hb; subst hin; subst hri
  simp [parseIter, m_ReadByte]

theorem s_ParseHex_pair (x d : Nat) (hx : isxdigit x = true) (hd : isxdigit d = true) :
    s_ParseHex [x, d] (some 0) = some (hexDigitVal x * 16 + hexDigitVal d) := by
  simp [s_ParseHex, hx, hd]

theorem parseIter_drSize_second (m : Modem) (d : Nat) (rest : List Nat)
    (hs : m.parserState = .RadioDrSize) (hb : m.oneByteBuf = none)
    (hin : m.input = d :: rest) (hri : m.rxIdx = 5)
    (hx4 : isxdigit (m.rxMessage 4) = true) (hxd : isxdigit d = true) :
    parseIter m = .cont { m with
      input := rest
      rxMessage := updFn m.rxMessage 5 d
      drMessagePresent := false
      drMessageLen := hexDigitVal (m.rxMessage 4) * 16 + hexDigitVal d
      rxIdx := 0
      parserState := .RadioDrPayload } := by
  obtain ⟨ps, ob, ri, rx, dp, dl, dm, ae, md, inp, tx, cb⟩ := m
  simp only at hs hb hin hri hx4
  subst hs; subst hb; subst hin; subst hri
  simp [parseIter, m_ReadByte, updFn_at, updFn_ne, hx4, hxd, s_ParseHex_pair]

theorem parseIter_drPayload_cont (m : Modem) (c : Nat) (rest : List Nat)
    (hs : m.parserState = .RadioDrPayload) (hb : m.oneByteBuf = none)
    (hin : m.input = c :: rest) (hne : m.drMessageLen + 2 ≠ m.rxIdx + 1) :
    parseIter m = .cont { m with
      input := rest
      drMessage := updFn m.drMessage m.rxIdx c
      rxIdx := m.rxIdx + 1 } := by
  obtain ⟨ps, ob, ri, rx, dp, dl, dm, ae, md, inp, tx, cb⟩ := m
  simp only at hs hb hin hne
  subst hs; subst hb; subst hin
  simp [parseIter, m_ReadByte, hne]

theorem parseIter_drPayload_finish (m : Modem) (rest : List Nat)
    (hs : m.parserState = .RadioDrPayload) (hb : m.oneByteBuf = none)
    (hin : m.input = 10 :: rest) (hidx : m.drMessageLen + 2 = m.rxIdx + 1)
    (hcr : m.drMessage (m.rxIdx - 1) = 13) :
    parseIter m = .ret .FinishedDrResponse { m with
      input := rest
      drMessage := updFn (updFn m.drMessage m.rxIdx 10) (m.rxIdx - 1) 0
      rxIdx := 0
      rxMessage := updFn m.rxMessage 0 0
      drMessagePresent := true
      parserState := .Start } := by
  obtain ⟨ps, ob, ri, rx, dp, dl, dm, ae, md, inp, tx, cb⟩ := m
  simp only at hs hb hin hidx hcr
  subst hs; subst hb; subst hin
  have hge : 1 ≤ ri := by omega
  have h1 : ri + 1 - 2 = ri - 1 := by omega
  have h2 : ri - 1 ≠ ri := by omega
  simp [parseIter, m_ReadByte, hidx, h1, h2, updFn_at, updFn_ne, hcr]

theorem parseIter_untilCR_cr (m : Modem) (rest : List Nat)
    (hs : m.parserState = .ReadCmdUntilCR) (hb : m.oneByteBuf = none)
    (hin : m.input = 13 :: rest) (hk : m.rxIdx + 1 ≠ 32) :
    parseIter m = .cont { m with
      input := rest
      rxMessage := updFn m.rxMessage m.rxIdx 13
      rxIdx := m.rxIdx + 1
      parserState := .ReadCmdUntilLF } := by
  obtain ⟨ps, ob, ri, rx, dp, dl, dm, ae, md, inp, tx, cb⟩ := m
  simp only at hs hb hin hk
  subst hs; subst hb; subst hin
  simp [parseIter, m_ReadByte, updFn_at, hk]

theorem parseIter_untilCR_cr_overflow (m : Modem) (rest : List Nat)
    (hs : m.parserState = .ReadCmdUntilCR) (hb : m.oneByteBuf = none)
    (hin : m.input = 13 :: rest) (hk : m.rxIdx + 1 = 32) :
    parseIter m = .ret .Overflow { m with
      input := rest
      rxMessage := updFn m.rxMessage m.rxIdx 13
      rxIdx := m.rxIdx + 1
      parserState := .Start } := by
  obtain ⟨ps, ob, ri, rx, dp, dl, dm, ae, md, inp, tx, cb⟩ := m
  simp only at hs hb hin hk
  subst hs; subst hb; subst hin
  simp [parseIter, m_ReadByte, updFn_at, hk]

theorem parseIter_untilLF_lf (m : Modem) (rest : List Nat)
    (hs : m.parserState = .ReadCmdUntilLF) (hb : m.oneByteBuf = none)
    (hin : m.input = 10 :: rest) :
    parseIter m = .ret .FinishedCmdResponse { m with
      input := rest
      rxMessage := updFn m.rxMessage m.rxIdx 10
      rxIdx := m.rxIdx - 1
      parserState := .Start } := by
  obtain ⟨ps, ob, ri, rx, dp, dl, dm, ae, md, inp, tx, cb⟩ := m
  simp only at hs hb hin
  subst hs; subst hb; subst hin
  simp [parseIter, m_ReadByte, updFn_at]

/-! ## Phase-run lemmas -/

/-- Bytes legal inside a command-response value: anything but CR, LF and
the asterisk. -/
def cmdValByte (c : Nat) : Prop := c ≠ 13 ∧ c ≠ 10 ∧ c ≠ 42

instance (c : Nat) : Decidable (cmdValByte c) := by
  unfold cmdValByte; infer_instance

theorem untilCR_run (value : List Nat) : ∀ (f : Nat) (m : Modem) (k : Nat) (rest : List Nat),
    m.parserState = .ReadCmdUntilCR → m.oneByteBuf = none → m.rxIdx = k →
    m.input = value ++ rest → k + value.length ≤ 31 →
    (∀ c ∈ value, cmdValByte c) →
    m_ParseLoop (value.length + (f + 1)) m =
      m_ParseLoop (f + 1) { m with
        rxIdx := k + value.length
        rxMessage := writeList m.rxMessage k value
        input := rest } := by
  induction value with
  | nil =>
    intro f m k rest hs hb hk hin _ _
    obtain ⟨ps, ob, ri, rx, dp, dl, dm, ae, md, inp, tx, cb⟩ := m
    simp only at hs hb hk hin
    subst hs; subst hb; subst hk; subst hin
    simp [writeList]
  | cons c cs ih =>
    intro f m k rest hs hb hk hin hlen hval
    have hc : cmdValByte c := hval c (by simp)
    have hlen' : k + (cs.length + 1) ≤ 31 := by simpa using hlen
    have hstep := parseIter_untilCR_cont m c (cs ++ rest) hs hb (by simpa using hin)
      hc.1 hc.2.1 hc.2.2 (by rw [hk]; omega)
    have harith : (c :: cs).length + (f + 1) = (cs.length + (f + 1)) + 1 := by
      simp; omega
    rw [harith, m_ParseLoop_cont _ _ _ (by simp [hin]) hstep]
    rw [ih f _ (k + 1) rest (by simp [hs]) (by simp [hb]) (by simp [hk]) (by simp) (by omega)
      (fun d hd => hval d (by simp [hd]))]
    obtain ⟨ps, ob, ri, rx, dp, dl, dm, ae, md, inp, tx, cb⟩ := m
    simp only at hs hb hk hin
    subst hs; subst hb; subst hk; subst hin
    show m_ParseLoop (f + 1) _ = m_ParseLoop (f + 1) _
    congr 1
    simp [writeList]
    omega

theorem drPayload_run (payload : List Nat) :
    ∀ (f : Nat) (m : Modem) (i : Nat) (rest : List Nat),
    m.parserState = .RadioDrPayload → m.oneByteBuf = none → m.rxIdx = i →
    m.input = payload ++ rest → i + payload.length ≤ m.drMessageLen →
    m_ParseLoop (payload.length + (f + 1)) m =
      m_ParseLoop (f + 1) { m with
        rxIdx := i + payload.length
        drMessage := writeList m.drMessage i payload
        input := rest } := by
  induction payload with
  | nil =>
    intro f m i rest hs hb hk hin _
    obtain ⟨ps, ob, ri, rx, dp, dl, dm, ae, md, inp, tx, cb⟩ := m
    simp only at hs hb hk hin
    subst hs; subst hb; subst hk; subst hin
    simp [writeList]
  | cons c cs ih =>
    intro f m i rest hs hb hk hin hlen
    have hstep := parseIter_drPayload_cont m c (cs ++ rest) hs hb (by simpa using hin)
      (by simp at hlen; omega)
    have harith : (c :: cs).length + (f + 1) = (cs.length + (f + 1)) + 1 := by
      simp; omega
    rw [harith, m_ParseLoop_cont _ _ _ (by simp [hin]) hstep]
    rw [ih f _ (i + 1) rest (by simp [hs]) (by simp [hb]) (by simp [hk]) (by simp)
      (by simp at hlen ⊢; omega)]
    obtain ⟨ps, ob, ri, rx, dp, dl, dm, ae, md, inp, tx, cb⟩ := m
    simp only at hs hb hk hin
    subst hs; subst hb; subst hk; subst hin
    show m_ParseLoop (f + 1) _ = m_ParseLoop (f + 1) _
    congr 1
    simp [writeList]
    omega

/-! ## Whole-frame lemmas -/

theorem m_Parse_cmdFrame (m : Modem) (a b : Nat) (value rest : List Nat)
    (hs : m.parserState = .Start) (hb : m.oneByteBuf = none)
    (hin : m.input = 42 :: a :: b :: 61 :: (value ++ 13 :: 10 :: rest))
    (ha : isupper a = true) (hbu : isupper b = true) (hab : ¬(a = 68 ∧ b = 82))
    (hval : ∀ c ∈ value, cmdValByte c) (hlen : value.length ≤ 26) :
    m_Parse m = (.FinishedCmdResponse, { m with
      parserState := .Start
      rxIdx := 4 + value.length
      rxMessage := updFn (updFn (writeList m.rxMessage 0 ([42, a, b, 61] ++ value))
          (4 + value.length) 13) (4 + value.length + 1) 10
      input := rest }) := by
  have hF : m.input.length + 3 =
      ((((value.length + (((rest.length + 3) + 1) + 1)) + 1) + 1) + 1) + 1 := by
    simp [hin]; omega
  show m_ParseLoop (m.input.length + 3) m = _
  rw [hF]
  rw [m_ParseLoop_cont _ _ _ (by simp [hin])
    (parseIter_start_star m (a :: b :: 61 :: (value ++ 13 :: 10 :: rest)) hs hb hin)]
  rw [m_ParseLoop_cont _ _ _ (by simp)
    (parseIter_firstLetter_upper _ a (b :: 61 :: (value ++ 13 :: 10 :: rest))
      (by simp) (by simp [hb]) (by simp) ha)]
  rw [m_ParseLoop_cont _ _ _ (by simp)
    (parseIter_secondLetter_upper _ b (61 :: (value ++ 13 :: 10 :: rest))
      (by simp) (by simp [hb]) (by simp) (by simp) hbu)]
  rw [m_ParseLoop_cont _ _ _ (by simp)
    (parseIter_param_cmd _ (value ++ 13 :: 10 :: rest)
      (by simp) (by simp [hb]) (by simp) (by simp)
      (by simp [updFn_at, updFn_ne, updFn]; exact fun h1 h2 => hab ⟨h1, h2⟩)
      (by simp [updFn_at, updFn_ne, updFn, ha]) (by simp [updFn_at, updFn_ne, updFn, hbu]))]
  rw [untilCR_run value ((rest.length + 3) + 1) _ 4 (13 :: 10 :: rest)
    (by simp) (by simp [hb]) (by simp) (by simp) (by omega) hval]
  rw [m_ParseLoop_cont _ _ _ (by simp)
    (parseIter_untilCR_cr _ (10 :: rest) (by simp) (by simp [hb]) (by simp)
      (by simp; omega))]
  rw [m_ParseLoop_ret _ _ _ _ (by simp)
    (parseIter_untilLF_lf _ rest (by simp) (by simp [hb]) (by simp))]
  obtain ⟨ps, ob, ri, rx, dp, dl, dm, ae, md, inp, tx, cb⟩ := m
  simp only at hs hb hin
  subst hs; subst hb; subst hin
  simp [Prod.mk.injEq, Modem.mk.injEq]
  all_goals simp [writeList]

theorem cmdFrame_readOut (g : Nat → Nat) (hdr value : List Nat) (hhdr : hdr.length = 4) :
    readOut (updFn (updFn (writeList g 0 (hdr ++ value)) (4 + value.length) 13)
      (4 + value.length + 1) 10) (4 + value.length) = hdr ++ value := by
  have hlen : (hdr ++ value).length = 4 + value.length := by simp [hhdr]
  rw [← hlen]
  apply readOut_eq
  intro i hi
  rw [updFn_ne _ _ _ _ (by simp [hhdr] at hi ⊢; omega),
    updFn_ne _ _ _ _ (by simp [hhdr] at hi ⊢; omega)]
  rw [writeList_in _ g 0 i (by omega) (by simpa using hi)]
  simp

theorem m_Parse_drFrame1 (m : Modem) (d1 : Nat) (rest : List Nat)
    (hs : m.parserState = .Start) (hb : m.oneByteBuf = none)
    (hin : m.input = 42 :: 68 :: 82 :: 61 :: d1 :: rest) :
    m_Parse m = (.Parsing, { m with
      parserState := .RadioDrSize
      rxIdx := 5
      rxMessage := writeList m.rxMessage 0 [42, 68, 82, 61, d1]
      input := rest }) := by
  have hF : m.input.length + 3 = ((((rest.length + 3) + 1) + 1) + 1) + 1 + 1 := by
    simp [hin]
  show m_ParseLoop (m.input.length + 3) m = _
  rw [hF]
  rw [m_ParseLoop_cont _ _ _ (by simp [hin])
    (parseIter_start_star m (68 :: 82 :: 61 :: d1 :: rest) hs hb hin)]
  rw [m_ParseLoop_cont _ _ _ (by simp)
    (parseIter_firstLetter_upper _ 68 (82 :: 61 :: d1 :: rest)
      (by simp) (by simp [hb]) (by simp) (by decide))]
  rw [m_ParseLoop_cont _ _ _ (by simp)
    (parseIter_secondLetter_upper _ 82 (61 :: d1 :: rest)
      (by simp) (by simp [hb]) (by simp) (by simp) (by decide))]
  rw [m_ParseLoop_cont _ _ _ (by simp)
    (parseIter_param_dr _ (d1 :: rest)
      (by simp) (by simp [hb]) (by simp) (by simp)
      (by simp [updFn]) (by simp [updFn]))]
  rw [m_ParseLoop_ret _ _ _ _ (by simp)
    (parseIter_drSize_first _ d1 rest (by simp) (by simp [hb]) (by simp) (by simp))]
  obtain ⟨ps, ob, ri, rx, dp, dl, dm, ae, md, inp, tx, cb⟩ := m
  simp only at hs hb hin
  subst hs; subst hb; subst hin
  simp [Prod.mk.injEq, Modem.mk.injEq]
  simp [writeList]

theorem m_Parse_drFrame2 (m : Modem) (d2 : Nat) (payload rest : List Nat)
    (hs : m.parserState = .RadioDrSize) (hb : m.oneByteBuf = none) (hri : m.rxIdx = 5)
    (hin : m.input = d2 :: (payload ++ 13 :: 10 :: rest))
    (hx4 : isxdigit (m.rxMessage 4) = true) (hxd : isxdigit d2 = true)
    (hpl : payload.length = hexDigitVal (m.rxMessage 4) * 16 + hexDigitVal d2) :
    m_Parse m = (.FinishedDrResponse, { m with
      rxIdx := 0
      rxMessage := updFn (updFn m.rxMessage 5 d2) 0 0
      drMessagePresent := true
      drMessageLen := payload.length
      drMessage := updFn (updFn (updFn (writeList m.drMessage 0 payload)
          payload.length 13) (payload.length + 1) 10) payload.length 0
      parserState := .Start
      input := rest }) := by
  have hF : m.input.length + 3 = ((payload.length + (((rest.length + 3) + 1) + 1))) + 1 := by
    simp [hin]; omega
  show m_ParseLoop (m.input.length + 3) m = _
  rw [hF]
  rw [m_ParseLoop_cont _ _ _ (by simp [hin])
    (parseIter_drSize_second m d2 (payload ++ 13 :: 10 :: rest) hs hb hin hri hx4 hxd)]
  rw [drPayload_run payload ((rest.length + 3) + 1) _ 0 (13 :: 10 :: rest)
    (by simp) (by simp [hb]) (by simp) (by simp) (by simp; omega)]
  rw [m_ParseLoop_cont _ _ _ (by simp)
    (parseIter_drPayload_cont _ 13 (10 :: rest) (by simp) (by simp [hb]) (by simp)
      (by simp; omega))]
  rw [m_ParseLoop_ret _ _ _ _ (by simp)
    (parseIter_drPayload_finish _ rest (by simp) (by simp [hb]) (by simp)
      (by simp; omega) (by simp [updFn_at, updFn_ne]))]
  obtain ⟨ps, ob, ri, rx, dp, dl, dm, ae, md, inp, tx, cb⟩ := m
  simp only at hs hb hin hri hx4 hpl
  subst hs; subst hb; subst hin; subst hri
  simp [Prod.mk.injEq, Modem.mk.injEq, hpl]

theorem drFrame_readOut (g : Nat → Nat) (payload : List Nat) :
    readOut (updFn (updFn (updFn (writeList g 0 payload) payload.length 13)
      (payload.length + 1) 10) payload.length 0) payload.length = payload := by
  apply readOut_eq
  intro i hi
  rw [updFn_ne _ _ _ _ (by omega), updFn_ne _ _ _ _ (by omega), updFn_ne _ _ _ _ (by omega)]
  rw [writeList_in _ g 0 i (by omega) (by simpa using hi)]
  simp

theorem parseAll_nil (f : Nat) (m : Modem) (hin : m.input = []) : parseAll f m = ([], m) := by
  cases f <;> simp [parseAll, hin]

theorem parseAll_cons (f : Nat) (m : Modem) (hin : m.input ≠ []) (c : MLR_ModemCmdState)
    (m' : Modem) (h : m_Parse m = (c, m')) :
    parseAll (f + 1) m = (c :: (parseAll f m').1, (parseAll f m').2) := by
  simp [parseAll, hin, h]

theorem parseIter_firstLetter_star (m : Modem) (rest : List Nat)
    (hs : m.parserState = .ReadCmdFirstLetter) (hb : m.oneByteBuf = none)
    (hin : m.input = 42 :: rest) :
    parseIter m = .ret .Garbage { m with
      input := rest
      rxMessage := updFn m.rxMessage m.rxIdx 42
      oneByteBuf := some 42
      parserState := .Start } := by
  obtain ⟨ps, ob, ri, rx, dp, dl, dm, ae, md, inp, tx, cb⟩ := m
  simp only at hs hb hin
  subst hs; subst hb; subst hin
  simp [parseIter, m_ReadByte, m_FlushGarbage, updFn_at, isupper]

theorem parseIter_secondLetter_star (m : Modem) (rest : List Nat)
    (hs : m.parserState = .ReadCmdSecondLetter) (hb : m.oneByteBuf = none)
    (hin : m.input = 42 :: rest) (hri : m.rxIdx = 2) :
    parseIter m = .ret .Garbage { m with
      input := rest
      rxMessage := updFn m.rxMessage 2 42
      oneByteBuf := some 42
      parserState := .Start } := by
  obtain ⟨ps, ob, ri, rx, dp, dl, dm, ae, md, inp, tx, cb⟩ := m
  simp only at hs hb hin hri
  subst hs; subst hb; subst hin; subst hri
  simp [parseIter, m_ReadByte, m_FlushGarbage, updFn_at, isupper]

theorem parseIter_param_star (m : Modem) (rest : List Nat)
    (hs : m.parserState = .ReadCmdParam) (hb : m.oneByteBuf = none)
    (hin : m.input = 42 :: rest) (hri : m.rxIdx = 3) :
    parseIter m = .ret .Garbage { m with
      input := rest
      rxMessage := updFn m.rxMessage 3 42
      oneByteBuf := some 42
      parserState := .Start } := by
  obtain ⟨ps, ob, ri, rx, dp, dl, dm, ae, md, inp, tx, cb⟩ := m
  simp only at hs hb hin hri
  subst hs; subst hb; subst hin; subst hri
  simp [parseIter, m_ReadByte, m_FlushGarbage, updFn_at]

theorem parseIter_untilCR_star (m : Modem) (rest : List Nat)
    (hs : m.parserState = .ReadCmdUntilCR) (hb : m.oneByteBuf = none)
    (hin : m.input = 42 :: rest) :
    parseIter m = .ret .Garbage { m with
      input := rest
      rxMessage := updFn m.rxMessage m.rxIdx 42
      oneByteBuf := some 42
      parserState := .Start } := by
  obtain ⟨ps, ob, ri, rx, dp, dl, dm, ae, md, inp, tx, cb⟩ := m
  simp only at hs hb hin
  subst hs; subst hb; subst hin
  simp [parseIter, m_ReadByte, m_FlushGarbage, updFn_at]

theorem parseIter_untilLF_star (m : Modem) (rest : List Nat)
    (hs : m.parserState = .ReadCmdUntilLF) (hb : m.oneByteBuf = none)
    (hin : m.input = 42 :: rest) :
    parseIter m = .ret .Garbage { m with
      input := rest
      rxMessage := updFn m.rxMessage m.rxIdx 42
      oneByteBuf := some 42
      parserState := .Start } := by
  obtain ⟨ps, ob, ri, rx, dp, dl, dm, ae, md, inp, tx, cb⟩ := m
  simp only at hs hb hin
  subst hs; subst hb; subst hin
  simp [parseIter, m_ReadByte, m_FlushGarbage, updFn_at]

/-! ## Claim C1 -/

/-- Claim C1, counterexample: feeding the six bytes star D R equals star
zero to a fresh parser, the asterisk that arrives in state RadioDrSize
(fifth byte) is consumed into the frame buffer; the size check then
fails, m_FlushGarbage finds nothing left to scan, and the run ends with
a Garbage event, an empty lookahead buffer and an empty uart: the
asterisk has been permanently discarded and never begins a fresh frame,
contrary to the claim that no mid-frame state discards an asterisk. -/
theorem C1_counterexample :
    (runParser [42, 68, 82, 61, 42, 48]).1 = [.Parsing, .Garbage] ∧
    (runParser [42, 68, 82, 61, 42, 48]).2.oneByteBuf = none ∧
    (runParser [42, 68, 82, 61, 42, 48]).2.input = [] ∧
    (runParser [42, 68, 82, 61, 42, 48]).2.parserState = .Start ∧
    countEvt .FinishedCmdResponse (runParser [42, 68, 82, 61, 42, 48]).1 = 0 ∧
    countEvt .FinishedDrResponse (runParser [42, 68, 82, 61, 42, 48]).1 = 0 := by
  decide

theorem C1_core (m : Modem) (rest : List Nat) (X : Nat) (hin : m.input = 42 :: rest)
    (hstep : parseIter m = .ret .Garbage { m with
      input := rest
      rxMessage := updFn m.rxMessage X 42
      oneByteBuf := some 42
      parserState := .Start }) :
    ∃ m', m_Parse m = (.Garbage, m') ∧ m'.parserState = .Start ∧
      m'.oneByteBuf = some 42 ∧ m'.input = rest ∧
      ∃ m'', parseIter m' = .cont m'' ∧ m''.parserState = .ReadCmdFirstLetter ∧
        m''.rxMessage 0 = 42 ∧ m''.rxIdx = 1 ∧ m''.oneByteBuf = none ∧ m''.input = rest := by
  have hF : m.input.length + 3 = (rest.length + 3) + 1 := by simp [hin]
  refine ⟨{ m with
      input := rest
      rxMessage := updFn m.rxMessage X 42
      oneByteBuf := some 42
      parserState := .Start }, ?_, rfl, rfl, rfl, ?_⟩
  · show m_ParseLoop (m.input.length + 3) m = _
    rw [hF, m_ParseLoop_ret _ _ _ _ (by simp [hin]) hstep]
  · refine ⟨_, parseIter_start_star_buf _ rfl rfl, rfl, ?_, rfl, rfl, rfl⟩
    simp [updFn]

/-- Claim C1, amended: a spurious asterisk arriving in the mid-frame
states ReadCmdFirstLetter, ReadCmdSecondLetter, ReadCmdParam,
ReadCmdUntilCR and ReadCmdUntilLF (with the buffer index the parser
maintains in those states) makes m_Parse abandon the frame with a
Garbage event, leaves the asterisk in the one-byte lookahead buffer
with the rest of the uart untouched, and the very next parse iteration
consumes that asterisk as the start of a fresh frame.  In the remaining
mid-frame state RadioDrSize the asterisk is NOT preserved (see the
counterexample): there the flush runs with the asterisk already
consumed into the frame buffer. -/
theorem C1_amended_star_resync (m : Modem) (rest : List Nat)
    (hb : m.oneByteBuf = none) (hin : m.input = 42 :: rest)
    (hs : m.parserState = .ReadCmdFirstLetter ∨
          (m.parserState = .ReadCmdSecondLetter ∧ m.rxIdx = 2) ∨
          (m.parserState = .ReadCmdParam ∧ m.rxIdx = 3) ∨
          m.parserState = .ReadCmdUntilCR ∨ m.parserState = .ReadCmdUntilLF) :
    ∃ m', m_Parse m = (.Garbage, m') ∧ m'.parserState = .Start ∧
      m'.oneByteBuf = some 42 ∧ m'.input = rest ∧
      ∃ m'', parseIter m' = .cont m'' ∧ m''.parserState = .ReadCmdFirstLetter ∧
        m''.rxMessage 0 = 42 ∧ m''.rxIdx = 1 ∧ m''.oneByteBuf = none ∧ m''.input = rest := by
  rcases hs with h | ⟨h, hri⟩ | ⟨h, hri⟩ | h | h
  · exact C1_core m rest m.rxIdx hin (parseIter_firstLetter_star m rest h hb hin)
  · exact C1_core m rest 2 hin (parseIter_secondLetter_star m rest h hb hin hri)
  · exact C1_core m rest 3 hin (parseIter_param_star m rest h hb hin hri)
  · exact C1_core m rest m.rxIdx hin (parseIter_untilCR_star m rest h hb hin)
  · exact C1_core m rest m.rxIdx hin (parseIter_untilLF_star m rest h hb hin)

/-- Witness for C1: a concrete mid-frame state (ReadCmdUntilCR) hit by
an asterisk with one more byte pending. -/
theorem C1_witness :
    ∃ m', m_Parse { initModem .FskCmd [42, 65] with
        parserState := .ReadCmdUntilCR, rxIdx := 4 } = (.Garbage, m') ∧
      m'.parserState = .Start ∧ m'.oneByteBuf = some 42 ∧ m'.input = [65] ∧
      ∃ m'', parseIter m' = .cont m'' ∧ m''.parserState = .ReadCmdFirstLetter ∧
        m''.rxMessage 0 = 42 ∧ m''.rxIdx = 1 ∧ m''.oneByteBuf = none ∧ m''.input = [65] := by
  exact C1_amended_star_resync _ [65] rfl rfl (Or.inr (Or.inr (Or.inr (Or.inl rfl))))

/-! ## Claim C2 -/

/-- Claim C2, counterexample, two parts.  First, a well-formed command
response whose content excluding CRLF is 31 bytes (which fits the
32-byte RawFrame buffer) does not produce a FinishedCmdResponse: the
parser reports Overflow when the CR is consumed.  Second, the uppercase
letters A equals D, B equals R give a well-formed command response
star D R equals 0 0 CRLF that is parsed as a data-reception frame
(FinishedDrResponse), not as a command response. -/
theorem C2_counterexample :
    countEvt .FinishedCmdResponse
      (runParser ([42, 65, 66, 61] ++ List.replicate 27 120 ++ [13, 10])).1 = 0 ∧
    countEvt .Overflow
      (runParser ([42, 65, 66, 61] ++ List.replicate 27 120 ++ [13, 10])).1 = 1 ∧
    countEvt .FinishedCmdResponse (runParser [42, 68, 82, 61, 48, 48, 13, 10]).1 = 0 ∧
    countEvt .FinishedDrResponse (runParser [42, 68, 82, 61, 48, 48, 13, 10]).1 = 1 := by
  decide

/-- Claim C2, amended: for every well-formed command response star A B
equals value CRLF with A and B uppercase letters other than the pair
D R, value free of CR, LF and asterisk bytes, and content excluding
CRLF at most 30 bytes (not 32: a 31-byte content overflows the 32-byte
buffer at the CR, see claim C10), feeding the bytes to m_Parse from the
Start state produces exactly one FinishedCmdResponse event, after which
m_rxMessage up to m_rxIdx holds exactly star A B equals value and
m_rxIdx is the content length with CRLF stripped. -/
theorem C2_amended_cmd_frame (a b : Nat) (value : List Nat)
    (ha : isupper a = true) (hbu : isupper b = true) (hab : ¬(a = 68 ∧ b = 82))
    (hval : ∀ c ∈ value, c < 256 ∧ cmdValByte c) (hlen : 4 + value.length ≤ 30) :
    countEvt .FinishedCmdResponse
      (runParser (42 :: a :: b :: 61 :: (value ++ [13, 10]))).1 = 1 ∧
    (runParser (42 :: a :: b :: 61 :: (value ++ [13, 10]))).2.rxIdx = 4 + value.length ∧
    readOut (runParser (42 :: a :: b :: 61 :: (value ++ [13, 10]))).2.rxMessage
      (4 + value.length) = 42 :: a :: b :: 61 :: value := by
  have hframe := m_Parse_cmdFrame (initModem .FskCmd (42 :: a :: b :: 61 :: (value ++ [13, 10])))
    a b value [] rfl rfl rfl ha hbu hab (fun c hc => (hval c hc).2) (by omega)
  unfold runParser
  rw [parseAll_cons _ _ (by simp [initModem]) _ _ hframe]
  rw [parseAll_nil _ _ (by simp)]
  refine ⟨by simp [countEvt], by simp, ?_⟩
  have hro := cmdFrame_readOut (fun _ => 0) [42, a, b, 61] value (by simp)
  simpa [initModem] using hro

/-- Witness for C2: the channel response star C H equals 0 A CRLF. -/
theorem C2_witness :
    countEvt .FinishedCmdResponse
      (runParser (42 :: 67 :: 72 :: 61 :: ([48, 65] ++ [13, 10]))).1 = 1 ∧
    (runParser (42 :: 67 :: 72 :: 61 :: ([48, 65] ++ [13, 10]))).2.rxIdx = 4 + [48, 65].length ∧
    readOut (runParser (42 :: 67 :: 72 :: 61 :: ([48, 65] ++ [13, 10]))).2.rxMessage
      (4 + [48, 65].length) = 42 :: 67 :: 72 :: 61 :: [48, 65] := by
  exact C2_amended_cmd_frame 67 72 [48, 65] (by decide) (by decide) (by decide)
    (by decide) (by decide)

/-! ## Claim C3 -/

/-- Claim C3 (confirmed): for every declared length given as two hex
digits d1 d2 and every payload of exactly that length, including
payloads containing asterisk, CR and LF bytes, feeding star D R equals
d1 d2 payload CRLF to m_Parse from the Start state produces exactly one
FinishedDrResponse event, with m_drMessageLen the declared length and
m_drMessage holding exactly the payload bytes. -/
theorem C3_dr_frame (d1 d2 : Nat) (payload : List Nat)
    (hx1 : isxdigit d1 = true) (hx2 : isxdigit d2 = true)
    (hpl : payload.length = hexDigitVal d1 * 16 + hexDigitVal d2)
    (hbytes : ∀ c ∈ payload, c < 256) :
    countEvt .FinishedDrResponse
      (runParser (42 :: 68 :: 82 :: 61 :: d1 :: d2 :: (payload ++ [13, 10]))).1 = 1 ∧
    (runParser (42 :: 68 :: 82 :: 61 :: d1 :: d2 :: (payload ++ [13, 10]))).2.drMessageLen =
      hexDigitVal d1 * 16 + hexDigitVal d2 ∧
    readOut (runParser (42 :: 68 :: 82 :: 61 :: d1 :: d2 :: (payload ++ [13, 10]))).2.drMessage
      payload.length = payload ∧
    (runParser (42 :: 68 :: 82 :: 61 :: d1 :: d2 :: (payload ++ [13, 10]))).2.drMessagePresent
      = true := by
  have hf1 := m_Parse_drFrame1
    (initModem .FskCmd (42 :: 68 :: 82 :: 61 :: d1 :: d2 :: (payload ++ [13, 10])))
    d1 (d2 :: (payload ++ [13, 10])) rfl rfl rfl
  unfold runParser
  rw [parseAll_cons _ _ (by simp [initModem]) _ _ hf1]
  rw [show (42 :: 68 :: 82 :: 61 :: d1 :: d2 :: (payload ++ [13, 10])).length =
    (payload.length + 7) + 1 by simp]
  have hf2 := m_Parse_drFrame2
    { initModem .FskCmd (42 :: 68 :: 82 :: 61 :: d1 :: d2 :: (payload ++ [13, 10])) with
        parserState := .RadioDrSize
        rxIdx := 5
        rxMessage := writeList (initModem .FskCmd (42 :: 68 :: 82 :: 61 :: d1 :: d2 ::
          (payload ++ [13, 10]))).rxMessage 0 [42, 68, 82, 61, d1]
        input := d2 :: (payload ++ [13, 10]) }
    d2 payload [] rfl rfl rfl rfl
    (by simpa [initModem, writeList, updFn] using hx1)
    hx2
    (by simpa [initModem, writeList, updFn] using hpl)
  rw [parseAll_cons _ _ (by simp) _ _ hf2]
  rw [parseAll_nil _ _ (by simp)]
  refine ⟨by simp [countEvt], by simpa using hpl, ?_, by simp⟩
  have hro := drFrame_readOut (fun _ => 0) payload
  simpa [initModem] using hro

/-- Witness for C3: declared length 5, payload containing an asterisk, a
CR and an LF among its five bytes. -/
theorem C3_witness :
    countEvt .FinishedDrResponse
      (runParser (42 :: 68 :: 82 :: 61 :: 48 :: 53 :: ([42, 13, 10, 72, 105] ++ [13, 10]))).1
      = 1 ∧
    (runParser (42 :: 68 :: 82 :: 61 :: 48 :: 53 ::
      ([42, 13, 10, 72, 105] ++ [13, 10]))).2.drMessageLen =
      hexDigitVal 48 * 16 + hexDigitVal 53 ∧
    readOut (runParser (42 :: 68 :: 82 :: 61 :: 48 :: 53 ::
      ([42, 13, 10, 72, 105] ++ [13, 10]))).2.drMessage [42, 13, 10, 72, 105].length =
      [42, 13, 10, 72, 105] ∧
    (runParser (42 :: 68 :: 82 :: 61 :: 48 :: 53 ::
      ([42, 13, 10, 72, 105] ++ [13, 10]))).2.drMessagePresent = true := by
  exact C3_dr_frame 48 53 [42, 13, 10, 72, 105] (by decide) (by decide) (by decide) (by decide)

/-! ## Parser invariant -/

/-- The buffer-index invariant the reachable parser states maintain. -/
def parserInv (m : Modem) : Prop :=
  (m.parserState = .ReadCmdFirstLetter → m.rxIdx = 1) ∧
  (m.parserState = .ReadCmdSecondLetter → m.rxIdx = 2) ∧
  (m.parserState = .ReadCmdParam → m.rxIdx = 3) ∧
  (m.parserState = .RadioDrSize → 4 ≤ m.rxIdx ∧ m.rxIdx ≤ 5) ∧
  (m.parserState = .ReadCmdUntilCR → 4 ≤ m.rxIdx ∧ m.rxIdx ≤ 31) ∧
  (m.parserState = .ReadCmdUntilLF → 5 ≤ m.rxIdx ∧ m.rxIdx ≤ 31)

instance (m : Modem) : Decidable (parserInv m) := by
  unfold parserInv; infer_instance

/-- The state carried by an iteration outcome. -/
def iterModem : IterOut → Modem
  | .ret _ m => m
  | .cont m => m

theorem parserInv_flush (m : Modem) : parserInv (m_FlushGarbage m) := by
  unfold m_FlushGarbage parserInv
  split <;> simp

set_option maxHeartbeats 2000000 in
theorem parserInv_iter (m : Modem) (h : parserInv m) :
    parserInv (iterModem (parseIter m)) := by
  obtain ⟨ps, ob, ri, rx, dp, dl, dm, ae, md, inp, tx, cb⟩ := m
  obtain ⟨h1, h2, h3, h4, h5, h6⟩ := h
  simp only at h1 h2 h3 h4 h5 h6
  cases ps <;> cases ob <;> cases inp <;>
      simp only [parseIter, m_ReadByte, iterModem] <;>
      (try split_ifs) <;>
      first
        | exact parserInv_flush _
        | (simp_all [iterModem, parserInv, updFn]; omega)
        | simp_all [iterModem, parserInv, updFn]

theorem m_ParseLoop_inv : ∀ (f : Nat) (m : Modem), parserInv m →
    parserInv (m_ParseLoop f m).2 := by
  intro f
  induction f with
  | zero => intro m h; exact h
  | succ f ih =>
    intro m h
    by_cases hin : m.input = []
    · simpa [m_ParseLoop, hin] using h
    · have hiter := parserInv_iter m h
      cases hcase : parseIter m with
      | ret c m' =>
        rw [hcase] at hiter
        simpa [m_ParseLoop, hin, hcase, iterModem] using hiter
      | cont m' =>
        rw [hcase] at hiter
        simp only [m_ParseLoop, hin, hcase, if_neg hin]
        exact ih m' (by simpa [iterModem] using hiter)

theorem m_Parse_inv (m : Modem) (h : parserInv m) : parserInv (m_Parse m).2 :=
  m_ParseLoop_inv _ m h

set_option maxHeartbeats 2000000 in
theorem parseIter_finishedCmd_rxIdx (m : Modem) (h : parserInv m) (m' : Modem)
    (hret : parseIter m = .ret .FinishedCmdResponse m') : m'.rxIdx ≤ 30 := by
  obtain ⟨ps, ob, ri, rx, dp, dl, dm, ae, md, inp, tx, cb⟩ := m
  obtain ⟨h1, h2, h3, h4, h5, h6⟩ := h
  simp only at h1 h2 h3 h4 h5 h6
  cases ps <;> cases ob <;> cases inp <;>
      simp only [parseIter, m_ReadByte, m_FlushGarbage] at hret <;>
      (try split_ifs at hret) <;>
      (try cases hret) <;>
      simp_all <;>
      omega

theorem m_ParseLoop_finishedCmd_rxIdx : ∀ (f : Nat) (m : Modem), parserInv m →
    ∀ m', m_ParseLoop f m = (.FinishedCmdResponse, m') → m'.rxIdx ≤ 30 := by
  intro f
  induction f with
  | zero => intro m _ m' hm; simp [m_ParseLoop] at hm
  | succ f ih =>
    intro m h m' hm
    by_cases hin : m.input = []
    · simp [m_ParseLoop, hin] at hm
    · cases hcase : parseIter m with
      | ret c m'' =>
        rw [m_ParseLoop_ret f m m'' c hin hcase] at hm
        obtain ⟨hc, hm'⟩ := Prod.mk.injEq .. ▸ hm
        subst hm'
        subst hc
        exact parseIter_finishedCmd_rxIdx m h m'' hcase
      | cont m'' =>
        rw [m_ParseLoop_cont f m m'' hin hcase] at hm
        have hiter := parserInv_iter m h
        rw [hcase] at hiter
        exact ih m'' (by simpa [iterModem] using hiter) m' hm

theorem m_Parse_lf_only (m : Modem) (hs : m.parserState = .Start) (hb : m.oneByteBuf = none)
    (hin : m.input = [10]) :
    m_Parse m = (.Parsing, { m with
      input := []
      oneByteBuf := none
      rxIdx := 0
      rxMessage := updFn m.rxMessage 0 10
      parserState := .Start }) := by
  have hF : m.input.length + 3 = 3 + 1 := by simp [hin]
  show m_ParseLoop (m.input.length + 3) m = _
  rw [hF, m_ParseLoop_ret _ _ _ _ (by simp [hin])
    (parseIter_start_garbage m 10 [] hs hb hin (by decide))]
  simp [flushScan]

/-! ## Claim C10 -/

theorem m_Parse_cmdFrameOverflow (m : Modem) (a b : Nat) (value rest : List Nat)
    (hs : m.parserState = .Start) (hb : m.oneByteBuf = none)
    (hin : m.input = 42 :: a :: b :: 61 :: (value ++ 13 :: rest))
    (ha : isupper a = true) (hbu : isupper b = true) (hab : ¬(a = 68 ∧ b = 82))
    (hval : ∀ c ∈ value, cmdValByte c) (hlen : value.length = 27) :
    m_Parse m = (.Overflow, { m with
      parserState := .Start
      rxIdx := 32
      rxMessage := updFn (writeList m.rxMessage 0 ([42, a, b, 61] ++ value)) 31 13
      input := rest }) := by
  have hF : m.input.length + 3 =
      (((value.length + ((rest.length + 3) + 1)) + 1) + 1) + 1 + 1 := by
    simp [hin]; omega
  show m_ParseLoop (m.input.length + 3) m = _
  rw [hF]
  rw [m_ParseLoop_cont _ _ _ (by simp [hin])
    (parseIter_start_star m (a :: b :: 61 :: (value ++ 13 :: rest)) hs hb hin)]
  rw [m_ParseLoop_cont _ _ _ (by simp)
    (parseIter_firstLetter_upper _ a (b :: 61 :: (value ++ 13 :: rest))
      (by simp) (by simp [hb]) (by simp) ha)]
  rw [m_ParseLoop_cont _ _ _ (by simp)
    (parseIter_secondLetter_upper _ b (61 :: (value ++ 13 :: rest))
      (by simp) (by simp [hb]) (by simp) (by simp) hbu)]
  rw [m_ParseLoop_cont _ _ _ (by simp)
    (parseIter_param_cmd _ (value ++ 13 :: rest)
      (by simp) (by simp [hb]) (by simp) (by simp)
      (by simp [updFn_at, updFn_ne, updFn]; exact fun h1 h2 => hab ⟨h1, h2⟩)
      (by simp [updFn_at, updFn_ne, updFn, ha]) (by simp [updFn_at, updFn_ne, updFn, hbu]))]
  rw [untilCR_run value (rest.length + 3) _ 4 (13 :: rest)
    (by simp) (by simp [hb]) (by simp) (by simp) (by omega) hval]
  rw [m_ParseLoop_ret _ _ _ _ (by simp)
    (parseIter_untilCR_cr_overflow _ rest (by simp) (by simp [hb]) (by simp)
      (by simp [hlen]))]
  obtain ⟨ps, ob, ri, rx, dp, dl, dm, ae, md, inp, tx, cb⟩ := m
  simp only at hs hb hin
  subst hs; subst hb; subst hin
  simp [Prod.mk.injEq, Modem.mk.injEq, hlen]
  simp [writeList]

/-- Claim C10 (confirmed): a well-formed command frame whose content
excluding CRLF is exactly 31 bytes (27 value bytes after star A B
equals) makes m_Parse report Overflow at the moment the CR is consumed
(the post-increment index reaches the 32-byte buffer size) and no
FinishedCmdResponse is ever reported for it; and from any state
satisfying the parser index invariant - which holds initially and is
preserved by every m_Parse call - a FinishedCmdResponse leaves m_rxIdx
at most 30, so only command frames of content at most 30 bytes
complete. -/
theorem C10_overflow_boundary :
    (∀ (a b : Nat) (value : List Nat), isupper a = true → isupper b = true →
      ¬(a = 68 ∧ b = 82) → (∀ c ∈ value, cmdValByte c) → value.length = 27 →
      countEvt .Overflow (runParser (42 :: a :: b :: 61 :: (value ++ [13, 10]))).1 = 1 ∧
      countEvt .FinishedCmdResponse
        (runParser (42 :: a :: b :: 61 :: (value ++ [13, 10]))).1 = 0) ∧
    (∀ (m m' : Modem), parserInv m → m_Parse m = (.FinishedCmdResponse, m') →
      m'.rxIdx ≤ 30) ∧
    (∀ (mode : MLR_ModemMode) (input : List Nat), parserInv (initModem mode input)) ∧
    (∀ m : Modem, parserInv m → parserInv (m_Parse m).2) := by
  refine ⟨?_, ?_, ?_, ?_⟩
  · intro a b value ha hbu hab hval hlen
    have hframe := m_Parse_cmdFrameOverflow
      (initModem .FskCmd (42 :: a :: b :: 61 :: (value ++ [13, 10])))
      a b value [10] rfl rfl rfl ha hbu hab hval hlen
    unfold runParser
    rw [parseAll_cons _ _ (by simp [initModem]) _ _ hframe]
    rw [show (42 :: a :: b :: 61 :: (value ++ [13, 10])).length = (value.length + 5) + 1
      by simp]
    rw [parseAll_cons _ _ (by simp) _ _ (m_Parse_lf_only _ rfl rfl rfl)]
    rw [parseAll_nil _ _ (by simp [flushScan])]
    simp [countEvt]
  · exact fun m m' hi hp => m_ParseLoop_finishedCmd_rxIdx _ m hi m' hp
  · intro mode input
    simp [parserInv, initModem]
  · exact fun m h => m_Parse_inv m h

/-- Witness for C10: a concrete 31-byte-content frame overflowing, and
the index bound applied after a concrete completed frame. -/
theorem C10_witness :
    (countEvt .Overflow
      (runParser (42 :: 65 :: 66 :: 61 :: (List.replicate 27 120 ++ [13, 10]))).1 = 1 ∧
    countEvt .FinishedCmdResponse
      (runParser (42 :: 65 :: 66 :: 61 :: (List.replicate 27 120 ++ [13, 10]))).1 = 0) ∧
    parserInv (initModem .FskCmd [42, 67, 72, 61, 48, 65, 13, 10]) := by
  constructor
  · exact C10_overflow_boundary.1 65 66 (List.replicate 27 120) (by decide) (by decide)
      (by decide) (by decide) (by simp)
  · exact C10_overflow_boundary.2.2.1 .FskCmd [42, 67, 72, 61, 48, 65, 13, 10]

/-! ## Parser state after events -/

theorem m_FlushGarbage_parserState (m : Modem) : (m_FlushGarbage m).parserState = .Start := by
  unfold m_FlushGarbage
  split <;> rfl

set_option maxHeartbeats 2000000 in
theorem parseIter_ret_parserState (m : Modem) (c : MLR_ModemCmdState) (m' : Modem)
    (h : parseIter m = .ret c m') (hc : c ≠ .Parsing) : m'.parserState = .Start := by
  obtain ⟨ps, ob, ri, rx, dp, dl, dm, ae, md, inp, tx, cb⟩ := m
  cases ps <;> cases ob <;> cases inp <;>
      simp only [parseIter, m_ReadByte] at h <;>
      (try split_ifs at h) <;>
      (try cases h) <;>
      simp_all [m_FlushGarbage_parserState]

theorem m_ParseLoop_ret_parserState : ∀ (f : Nat) (m : Modem) (c : MLR_ModemCmdState)
    (m' : Modem), m_ParseLoop f m = (c, m') → c ≠ .Parsing → m'.parserState = .Start := by
  intro f
  induction f with
  | zero =>
    intro m c m' h hc
    simp [m_ParseLoop] at h
    exact absurd h.1.symm hc
  | succ f ih =>
    intro m c m' h hc
    by_cases hin : m.input = []
    · simp [m_ParseLoop, hin] at h
      exact absurd h.1.symm hc
    · cases hcase : parseIter m with
      | ret c2 m2 =>
        rw [m_ParseLoop_ret f m m2 c2 hin hcase] at h
        obtain ⟨h1, h2⟩ := Prod.mk.injEq .. ▸ h
        subst h1; subst h2
        exact parseIter_ret_parserState _ _ _ hcase hc
      | cont m2 =>
        rw [m_ParseLoop_cont f m m2 hin hcase] at h
        exact ih m2 c m' h hc

theorem m_Parse_event_parserState (m : Modem) (c : MLR_ModemCmdState) (m' : Modem)
    (h : m_Parse m = (c, m')) (hc : c ≠ .Parsing) : m'.parserState = .Start :=
  m_ParseLoop_ret_parserState _ m c m' h hc

theorem m_WaitLoop_parserState : ∀ (t : Nat) (m : Modem) (arr : List (List Nat)),
    ((m_WaitLoop t m arr).2.1).parserState = .Start := by
  intro t
  induction t with
  | zero => intro m arr; rfl
  | succ t ih =>
    intro m arr
    simp only [m_WaitLoop]
    rcases hB : nextBatch arr with ⟨batch, arr2⟩
    simp only [hB]
    rcases hP : m_Parse { m with input := m.input ++ batch } with ⟨c, m2⟩
    cases c
    · simpa [hP] using ih m2 arr2
    · simpa [hP] using m_Parse_event_parserState _ _ _ hP (by simp)
    · simpa [hP] using m_Parse_event_parserState _ _ _ hP (by simp)
    · simpa [hP] using m_Parse_event_parserState _ _ _ hP (by simp)
    · simpa [hP] using
        ih { m2 with cbLog := m2.cbLog ++ [readOut m2.drMessage m2.drMessageLen] } arr2

theorem m_WaitCmdResponse_parserState (ms : Nat) (m : Modem) (arr : List (List Nat)) :
    ((m_WaitCmdResponse ms m arr).2.1).parserState = .Start :=
  m_WaitLoop_parserState (ms + 1) m arr

/-! ## Claim C5 -/

/-- Claim C5 (confirmed): the response wait returns Ok exactly when the
parser reports a finished command response (the frame buffer left
populated); a Garbage or Overflow event makes it return Fail at once,
with the remaining arrival ticks unconsumed; deadline exhaustion
returns Fail; a finished data-reception frame is delivered to the
callback (appended to the callback log) and the wait continues, so
every data frame completing during the wait is logged strictly before
the wait returns Ok.  The final conjunct replays the scenario from the
specification: while awaiting a star S N response, a data frame with
five-byte payload Hello arrives first; the callback log receives
exactly Hello (length five) and the wait then returns Ok with the
serial-number frame captured. -/
theorem C5_wait_behavior :
    (∀ (t : Nat) (m m' : Modem) (arr : List (List Nat)),
      m_Parse { m with input := m.input ++ (nextBatch arr).1 } = (.Garbage, m') →
      m_WaitLoop (t + 1) m arr = (.Fail, m', (nextBatch arr).2)) ∧
    (∀ (t : Nat) (m m' : Modem) (arr : List (List Nat)),
      m_Parse { m with input := m.input ++ (nextBatch arr).1 } = (.Overflow, m') →
      m_WaitLoop (t + 1) m arr = (.Fail, m', (nextBatch arr).2)) ∧
    (∀ (t : Nat) (m m' : Modem) (arr : List (List Nat)),
      m_Parse { m with input := m.input ++ (nextBatch arr).1 } = (.FinishedCmdResponse, m') →
      m_WaitLoop (t + 1) m arr = (.Ok, m', (nextBatch arr).2)) ∧
    (∀ (t : Nat) (m m' : Modem) (arr : List (List Nat)),
      m_Parse { m with input := m.input ++ (nextBatch arr).1 } = (.FinishedDrResponse, m') →
      m_WaitLoop (t + 1) m arr = m_WaitLoop t
        { m' with cbLog := m'.cbLog ++ [readOut m'.drMessage m'.drMessageLen] }
        (nextBatch arr).2) ∧
    (∀ (m : Modem) (arr : List (List Nat)),
      m_WaitLoop 0 m arr = (.Fail, { m with parserState := .Start }, arr)) ∧
    ((m_WaitCmdResponse 500 (initModem .FskCmd [])
        [[42, 68, 82, 61, 48, 53, 72, 101, 108, 108, 111, 13, 10,
          42, 83, 78, 61, 83, 48, 48, 48, 48, 48, 48, 49, 13, 10]]).1 = .Ok ∧
      (m_WaitCmdResponse 500 (initModem .FskCmd [])
        [[42, 68, 82, 61, 48, 53, 72, 101, 108, 108, 111, 13, 10,
          42, 83, 78, 61, 83, 48, 48, 48, 48, 48, 48, 49, 13, 10]]).2.1.cbLog =
        [[72, 101, 108, 108, 111]] ∧
      (m_WaitCmdResponse 500 (initModem .FskCmd [])
        [[42, 68, 82, 61, 48, 53, 72, 101, 108, 108, 111, 13, 10,
          42, 83, 78, 61, 83, 48, 48, 48, 48, 48, 48, 49, 13, 10]]).2.1.rxIdx = 12 ∧
      readOut (m_WaitCmdResponse 500 (initModem .FskCmd [])
        [[42, 68, 82, 61, 48, 53, 72, 101, 108, 108, 111, 13, 10,
          42, 83, 78, 61, 83, 48, 48, 48, 48, 48, 48, 49, 13, 10]]).2.1.rxMessage 12 =
        [42, 83, 78, 61, 83, 48, 48, 48, 48, 48, 48, 49]) := by
  refine ⟨?_, ?_, ?_, ?_, ?_, ?_⟩
  · intro t m m' arr hP
    rcases hB : nextBatch arr with ⟨batch, arr2⟩
    rw [hB] at hP
    simp only at hP
    simp [m_WaitLoop, hB, hP]
  · intro t m m' arr hP
    rcases hB : nextBatch arr with ⟨batch, arr2⟩
    rw [hB] at hP
    simp only at hP
    simp [m_WaitLoop, hB, hP]
  · intro t m m' arr hP
    rcases hB : nextBatch arr with ⟨batch, arr2⟩
    rw [hB] at hP
    simp only at hP
    simp [m_WaitLoop, hB, hP]
  · intro t m m' arr hP
    rcases hB : nextBatch arr with ⟨batch, arr2⟩
    rw [hB] at hP
    simp only at hP
    simp [m_WaitLoop, hB, hP]
  · intro m arr; rfl
  · refine ⟨by decide, by decide, by decide, by decide⟩

/-- Witness for C5: each wait-step equation applied at a concrete state
and arrival batch producing the corresponding parser event. -/
theorem C5_witness :
    m_WaitLoop (5 + 1) (initModem .FskCmd []) [[42, 97]] =
      (.Fail, (m_Parse { initModem .FskCmd [] with
        input := (initModem .FskCmd []).input ++ (nextBatch [[42, 97]]).1 }).2,
        (nextBatch [[42, 97]]).2) ∧
    m_WaitLoop (5 + 1) (initModem .FskCmd []) [([42, 65, 66, 61] ++ List.replicate 28 120)] =
      (.Fail, (m_Parse { initModem .FskCmd [] with
        input := (initModem .FskCmd []).input ++
          (nextBatch [([42, 65, 66, 61] ++ List.replicate 28 120)]).1 }).2,
        (nextBatch [([42, 65, 66, 61] ++ List.replicate 28 120)]).2) ∧
    m_WaitLoop (5 + 1) (initModem .FskCmd []) [[42, 67, 72, 61, 48, 65, 13, 10]] =
      (.Ok, (m_Parse { initModem .FskCmd [] with
        input := (initModem .FskCmd []).input ++
          (nextBatch [[42, 67, 72, 61, 48, 65, 13, 10]]).1 }).2,
        (nextBatch [[42, 67, 72, 61, 48, 65, 13, 10]]).2) ∧
    m_WaitLoop (5 + 1)
      { initModem .FskCmd [] with parserState := .RadioDrPayload, drMessageLen := 0, rxIdx := 0 }
      [[13, 10]] =
      m_WaitLoop 5
        { (m_Parse { { initModem .FskCmd [] with
              parserState := .RadioDrPayload, drMessageLen := 0, rxIdx := 0 } with
            input := ({ initModem .FskCmd [] with
              parserState := .RadioDrPayload, drMessageLen := 0, rxIdx := 0 }).input ++
              (nextBatch [[13, 10]]).1 }).2 with
          cbLog := (m_Parse { { initModem .FskCmd [] with
              parserState := .RadioDrPayload, drMessageLen := 0, rxIdx := 0 } with
            input := ({ initModem .FskCmd [] with
              parserState := .RadioDrPayload, drMessageLen := 0, rxIdx := 0 }).input ++
              (nextBatch [[13, 10]]).1 }).2.cbLog ++
            [readOut (m_Parse { { initModem .FskCmd [] with
              parserState := .RadioDrPayload, drMessageLen := 0, rxIdx := 0 } with
            input := ({ initModem .FskCmd [] with
              parserState := .RadioDrPayload, drMessageLen := 0, rxIdx := 0 }).input ++
              (nextBatch [[13, 10]]).1 }).2.drMessage
              (m_Parse { { initModem .FskCmd [] with
              parserState := .RadioDrPayload, drMessageLen := 0, rxIdx := 0 } with
            input := ({ initModem .FskCmd [] with
              parserState := .RadioDrPayload, drMessageLen := 0, rxIdx := 0 }).input ++
              (nextBatch [[13, 10]]).1 }).2.drMessageLen] }
        (nextBatch [[13, 10]]).2 := by
  refine ⟨?_, ?_, ?_, ?_⟩
  · exact C5_wait_behavior.1 5 _ _ _ (Prod.ext_iff.mpr ⟨by decide, rfl⟩)
  · exact C5_wait_behavior.2.1 5 _ _ _ (Prod.ext_iff.mpr ⟨by decide, rfl⟩)
  · exact C5_wait_behavior.2.2.1 5 _ _ _ (Prod.ext_iff.mpr ⟨by decide, rfl⟩)
  · exact C5_wait_behavior.2.2.2.1 5 _ _ _ (Prod.ext_iff.mpr ⟨by decide, rfl⟩)

/-! ## Decoder state lemmas -/

theorem m_HandleMessage_WR_state (m : Modem) : (m_HandleMessage_WR m).2 = m := by
  unfold m_HandleMessage_WR
  split_ifs <;> rfl

theorem m_HandleMessage_IZ_state (m : Modem) : (m_HandleMessage_IZ m).2 = m := by
  unfold m_HandleMessage_IZ
  split_ifs <;> rfl

theorem m_HandleMessageHexByte_state (m : Modem) (len : Nat) (pfx : List Nat) :
    (m_HandleMessageHexByte m len pfx).2.2 = m := by
  unfold m_HandleMessageHexByte
  split_ifs <;> (try split) <;> rfl

theorem m_HandleMessageHexWord_state (m : Modem) (len : Nat) (pfx : List Nat) :
    (m_HandleMessageHexWord m len pfx).2.2 = m := by
  unfold m_HandleMessageHexWord
  split_ifs <;> (try split) <;> rfl

theorem m_HandleMessage_SN_state (m : Modem) : (m_HandleMessage_SN m).2.2 = m := by
  unfold m_HandleMessage_SN
  split_ifs <;> simp only [] <;> (try split) <;> rfl

theorem handleMessageDbm_state (m : Modem) (pfx : List Nat) :
    (handleMessageDbm m pfx).2.2.parserState = m.parserState ∧
    (handleMessageDbm m pfx).2.2.rxIdx = m.rxIdx ∧
    (handleMessageDbm m pfx).2.2.oneByteBuf = m.oneByteBuf ∧
    ((handleMessageDbm m pfx).2.2.rxMessage = m.rxMessage ∨
     (handleMessageDbm m pfx).2.2.rxMessage = updFn m.rxMessage (m.rxIdx - 3) 0) := by
  unfold handleMessageDbm
  split_ifs <;> simp <;> split_ifs <;> simp

/-! ## Operation-level parser state lemmas -/

theorem m_GetByteValue_parserState (m : Modem) (cmd pfx : List Nat) (len : Nat)
    (arr : List (List Nat)) (h : (m_GetByteValue m cmd pfx len arr).1 ≠ .Busy) :
    (m_GetByteValue m cmd pfx len arr).2.2.1.parserState = .Start := by
  by_cases hbusy : m.asyncExpectedResponse = .Idle
  · unfold m_GetByteValue
    simp only [hbusy, ne_eq, not_true_eq_false, if_false, ite_false, if_neg,
      not_false_eq_true]
    rcases hw : m_WaitCmdResponse 500 (writeOut m cmd) arr with ⟨rv1, m1, arr1⟩
    have h1 : m1.parserState = .Start := by
      have := m_WaitCmdResponse_parserState 500 (writeOut m cmd) arr
      rw [hw] at this
      exact this
    simp only [hw]
    split_ifs
    · rcases hd : m_HandleMessageHexByte m1 len pfx with ⟨rv2, v2, m2⟩
      have h2 : m2 = m1 := by
        have := m_HandleMessageHexByte_state m1 len pfx
        rw [hd] at this
        exact this
      simp [hd, h2, h1]
    · exact h1
  · exfalso
    apply h
    simp [m_GetByteValue, hbusy]

theorem m_SetByteValue_parserState (m : Modem) (cmdPfx : List Nat) (value : Nat)
    (saveValue : Bool) (respPfx : List Nat) (respLen : Nat) (arr : List (List Nat))
    (h : (m_SetByteValue m cmdPfx value saveValue respPfx respLen arr).1 ≠ .Busy) :
    (m_SetByteValue m cmdPfx value saveValue respPfx respLen arr).2.1.parserState = .Start := by
  by_cases hbusy : m.asyncExpectedResponse = .Idle
  · unfold m_SetByteValue
    simp only [hbusy, ne_eq, not_true_eq_false, if_false, ite_false, if_neg,
      not_false_eq_true]
    rcases hw1 : m_WaitCmdResponse 500
      (writeOut m (cmdPfx ++ toHex2 value ++ (if saveValue then [47, 87] else []) ++ [13, 10]))
      arr with ⟨rv1, m1, arr1⟩
    have h1 : m1.parserState = .Start := by
      have := m_WaitCmdResponse_parserState 500
        (writeOut m (cmdPfx ++ toHex2 value ++ (if saveValue then [47, 87] else []) ++ [13, 10]))
        arr
      rw [hw1] at this
      exact this
    simp only [hw1]
    rcases hwr : m_HandleMessage_WR m1 with ⟨rvw, mw⟩
    have hww : mw = m1 := by
      have := m_HandleMessage_WR_state m1
      rw [hwr] at this
      exact this
    rcases hw2 : m_WaitCmdResponse 500 mw arr1 with ⟨rv2, m2, arr2⟩
    have h2 : m2.parserState = .Start := by
      have := m_WaitCmdResponse_parserState 500 mw arr1
      rw [hw2] at this
      exact this
    subst hww
    split_ifs <;>
      simp_all [hwr, hw2, m_HandleMessageHexByte_state] <;>
      (try rcases hd : m_HandleMessageHexByte m1 respLen respPfx with ⟨rvd, vd, md⟩) <;>
      (try rcases hd2 : m_HandleMessageHexByte m2 respLen respPfx with ⟨rvd2, vd2, md2⟩) <;>
      simp_all [m_HandleMessageHexByte_state] <;>
      split_ifs <;>
      simp_all
  · exfalso
    apply h
    simp [m_SetByteValue, hbusy]

theorem SendRawCommand_parserState (m : Modem) (command : List Nat) (bufferSize timeoutMs : Nat)
    (arr : List (List Nat))
    (h : (SendRawCommand m command bufferSize timeoutMs arr).1 ≠ .Busy)
    (h2 : (SendRawCommand m command bufferSize timeoutMs arr).1 ≠ .InvalidArg) :
    (SendRawCommand m command bufferSize timeoutMs arr).2.2.1.parserState = .Start := by
  by_cases hbuf : bufferSize = 0
  · exfalso; apply h2; simp [SendRawCommand, hbuf]
  by_cases hbusy : m.asyncExpectedResponse = .Idle
  · unfold SendRawCommand
    simp only [hbuf, hbusy, ne_eq, not_true_eq_false, if_false, ite_false, if_neg,
      not_false_eq_true]
    rcases hw : m_WaitCmdResponse timeoutMs (writeOut m command) arr with ⟨rv1, m1, arr1⟩
    have h1 : m1.parserState = .Start := by
      have := m_WaitCmdResponse_parserState timeoutMs (writeOut m command) arr
      rw [hw] at this
      exact this
    simp only [hw]
    split_ifs <;> simp [h1]
  · exfalso; apply h; simp [SendRawCommand, hbuf, hbusy]

set_option maxHeartbeats 1000000 in
theorem TransmitData_parserState (m : Modem) (pMsg : List Nat) (len : Nat)
    (arr : List (List Nat)) (h : (TransmitData m pMsg len arr).1 ≠ .Busy) :
    (TransmitData m pMsg len arr).2.1.parserState = .Start := by
  by_cases hbusy : m.asyncExpectedResponse = .Idle
  · unfold TransmitData
    simp only [hbusy, ne_eq, not_true_eq_false, if_false, ite_false, if_neg,
      not_false_eq_true]
    rcases hw1 : m_WaitCmdResponse 500
      (writeOut m ([64, 68, 84] ++ toHex2 len ++ pMsg ++ [13, 10])) arr with ⟨rv1, m1, arr1⟩
    have h1 : m1.parserState = .Start := by
      have := m_WaitCmdResponse_parserState 500
        (writeOut m ([64, 68, 84] ++ toHex2 len ++ pMsg ++ [13, 10])) arr
      rw [hw1] at this
      exact this
    simp only [hw1]
    clear hw1 h
    by_cases hrv1 : rv1 = .Ok
    case neg =>
      simp [hrv1]
      split_ifs <;> simp_all
    case pos =>
      subst hrv1
      simp only [eq_self_iff_true, if_true, ite_true]
      rcases hd1 : m_HandleMessageHexByte m1 6 [42, 68, 84, 61] with ⟨rvd1, vd1, md1⟩
      have hmd1 : md1 = m1 := by
        have := m_HandleMessageHexByte_state m1 6 [42, 68, 84, 61]
        rw [hd1] at this
        exact this
      simp only [hd1, hmd1, eq_self_iff_true, if_true, ite_true]
      clear hd1 hmd1
      by_cases hmis : rvd1 = .Ok ∧ vd1.getD 0 ≠ len
      · simp only [if_pos hmis]
        split_ifs <;> simp_all
      · simp only [if_neg hmis]
        by_cases hrvd1 : rvd1 = .Ok
        case neg =>
          simp [hrvd1]
          split_ifs <;> simp_all
        case pos =>
          subst hrvd1
          simp only [eq_self_iff_true, if_true, ite_true]
          by_cases hmode : m1.mode = .LoRaCmd
          · simp only [if_pos hmode]
            rcases hw2 : m_WaitCmdResponse 15000 m1 arr1 with ⟨rv2, m2, arr2⟩
            have h2 : m2.parserState = .Start := by
              have := m_WaitCmdResponse_parserState 15000 m1 arr1
              rw [hw2] at this
              exact this
            simp only [hw2]
            clear hw2
            by_cases hrv2 : rv2 = .Ok
            · subst hrv2
              rcases hda : m_HandleMessageHexByte m2 6 [42, 73, 82, 61] with ⟨rvda, vda, mda⟩
              have hmda : mda = m2 := by
                have := m_HandleMessageHexByte_state m2 6 [42, 73, 82, 61]
                rw [hda] at this
                exact this
              simp only [hda, hmda, eq_self_iff_true, if_true, ite_true]
              clear hda hmda
              split_ifs <;> simp_all
            · simp [hrv2]
              split_ifs <;> simp_all
          · simp only [if_neg hmode]
            rcases hw2 : m_WaitCmdResponse 11 m1 arr1 with ⟨rv2, m2, arr2⟩
            have h2 : m2.parserState = .Start := by
              have := m_WaitCmdResponse_parserState 11 m1 arr1
              rw [hw2] at this
              exact this
            simp only [hw2]
            clear hw2
            by_cases hrv2 : rv2 = .Ok
            · subst hrv2
              rcases hda : m_HandleMessageHexByte m2 6 [42, 73, 82, 61] with ⟨rvda, vda, mda⟩
              have hmda : mda = m2 := by
                have := m_HandleMessageHexByte_state m2 6 [42, 73, 82, 61]
                rw [hda] at this
                exact this
              simp only [hda, hmda, eq_self_iff_true, if_true, ite_true]
              clear hda hmda
              split_ifs <;> simp_all
            · simp [hrv2]
              split_ifs <;> simp_all
  · exfalso; apply h; simp [TransmitData, hbusy]

/-! ## Claim C9 -/

/-- Claim C9 (confirmed): every failure leaves the parser in the Start
state, ready for the next frame.  The response wait ends with
m_parserState Start on every failure (the timeout path resets it
explicitly, and a Garbage or Overflow event has already reset it
through m_FlushGarbage or the overflow branch); m_FlushGarbage itself
always resets to Start; and the request operations - the byte-value
get and set helpers behind every parameter accessor, SendRawCommand and
TransmitData - leave m_parserState Start on every Fail, FailLbt or
BufferTooSmall result, decode failures included, because the decoders
do not touch the parser state. -/
theorem C9_parser_ready_after_failure :
    (∀ (ms : Nat) (m : Modem) (arr : List (List Nat)),
      (m_WaitCmdResponse ms m arr).1 = .Fail →
      (m_WaitCmdResponse ms m arr).2.1.parserState = .Start) ∧
    (∀ m : Modem, (m_FlushGarbage m).parserState = .Start) ∧
    (∀ (m : Modem) (cmd pfx : List Nat) (len : Nat) (arr : List (List Nat)),
      (m_GetByteValue m cmd pfx len arr).1 = .Fail →
      (m_GetByteValue m cmd pfx len arr).2.2.1.parserState = .Start) ∧
    (∀ (m : Modem) (cmdPfx : List Nat) (value : Nat) (sv : Bool) (respPfx : List Nat)
        (respLen : Nat) (arr : List (List Nat)),
      (m_SetByteValue m cmdPfx value sv respPfx respLen arr).1 = .Fail →
      (m_SetByteValue m cmdPfx value sv respPfx respLen arr).2.1.parserState = .Start) ∧
    (∀ (m : Modem) (command : List Nat) (bufferSize timeoutMs : Nat) (arr : List (List Nat)),
      ((SendRawCommand m command bufferSize timeoutMs arr).1 = .Fail ∨
       (SendRawCommand m command bufferSize timeoutMs arr).1 = .BufferTooSmall) →
      (SendRawCommand m command bufferSize timeoutMs arr).2.2.1.parserState = .Start) ∧
    (∀ (m : Modem) (pMsg : List Nat) (len : Nat) (arr : List (List Nat)),
      ((TransmitData m pMsg len arr).1 = .Fail ∨ (TransmitData m pMsg len arr).1 = .FailLbt) →
      (TransmitData m pMsg len arr).2.1.parserState = .Start) := by
  refine ⟨?_, m_FlushGarbage_parserState, ?_, ?_, ?_, ?_⟩
  · intro ms m arr _
    exact m_WaitCmdResponse_parserState ms m arr
  · intro m cmd pfx len arr hf
    exact m_GetByteValue_parserState m cmd pfx len arr (by simp [hf])
  · intro m cmdPfx value sv respPfx respLen arr hf
    exact m_SetByteValue_parserState m cmdPfx value sv respPfx respLen arr (by simp [hf])
  · intro m command bufferSize timeoutMs arr hf
    rcases hf with hf | hf <;>
      exact SendRawCommand_parserState m command bufferSize timeoutMs arr
        (by simp [hf]) (by simp [hf])
  · intro m pMsg len arr hf
    rcases hf with hf | hf <;> exact TransmitData_parserState m pMsg len arr (by simp [hf])

set_option maxRecDepth 100000 in
set_option maxHeartbeats 4000000 in
/-- Witness for C9: a timed-out wait, a timed-out get, and a timed-out
transmit all end with the parser in the Start state. -/
theorem C9_witness :
    (m_WaitCmdResponse 2 (initModem .FskCmd []) []).2.1.parserState = .Start ∧
    (m_GetByteValue (initModem .FskCmd []) [64, 67, 72, 13, 10] [42, 67, 72, 61] 6
      []).2.2.1.parserState = .Start ∧
    (TransmitData (initModem .LoRaCmd []) [0] 1 []).2.1.parserState = .Start := by
  refine ⟨?_, ?_, ?_⟩
  · exact C9_parser_ready_after_failure.1 2 (initModem .FskCmd []) [] (by decide)
  · exact C9_parser_ready_after_failure.2.2.1 (initModem .FskCmd []) [64, 67, 72, 13, 10]
      [42, 67, 72, 61] 6 [] (by decide)
  · exact C9_parser_ready_after_failure.2.2.2.2.2 (initModem .LoRaCmd []) [0] 1 []
      (Or.inl (by decide))

/-! ## Wait and decode composition helpers -/

theorem m_WaitLoop_okStep (t : Nat) (m m' : Modem) (arr : List (List Nat))
    (hP : m_Parse { m with input := m.input ++ (nextBatch arr).1 } = (.FinishedCmdResponse, m')) :
    m_WaitLoop (t + 1) m arr = (.Ok, m', (nextBatch arr).2) := by
  rcases hB : nextBatch arr with ⟨batch, arr2⟩
  rw [hB] at hP
  simp only at hP
  simp [m_WaitLoop, hB, hP]

theorem m_Parse_noInput (m : Modem) (hin : m.input = []) : m_Parse m = (.Parsing, m) := by
  show m_ParseLoop (m.input.length + 3) m = _
  rw [hin]
  simp [m_ParseLoop, hin]

theorem m_WaitLoop_empty : ∀ (t : Nat) (m : Modem), m.input = [] →
    m_WaitLoop t m [] = (.Fail, { m with parserState := .Start }, []) := by
  intro t
  induction t with
  | zero => intro m _; rfl
  | succ t ih =>
    intro m hin
    obtain ⟨ps, ob, ri, rx, dp, dl, dm, ae, md, inp, tx, cb⟩ := m
    simp only at hin
    subst hin
    simp only [m_WaitLoop, nextBatch, List.append_nil]
    rw [m_Parse_noInput _ rfl]
    exact ih _ rfl

theorem m_WaitLoop_skipEmpty : ∀ (k t : Nat) (m : Modem) (arr : List (List Nat)),
    m.input = [] →
    m_WaitLoop (k + t) m (List.replicate k [] ++ arr) = m_WaitLoop t m arr := by
  intro k
  induction k with
  | zero => intro t m arr _; simp
  | succ k ih =>
    intro t m arr hin
    obtain ⟨ps, ob, ri, rx, dp, dl, dm, ae, md, inp, tx, cb⟩ := m
    simp only at hin
    subst hin
    rw [show k + 1 + t = (k + t) + 1 from by omega]
    simp only [m_WaitLoop, List.replicate, List.cons_append, nextBatch, List.append_nil]
    rw [m_Parse_noInput _ rfl]
    exact ih t _ arr rfl

theorem toHexDigit_bounds (d : Nat) (hd : d < 16) :
    48 ≤ toHexDigit d ∧ toHexDigit d ≤ 70 := by
  unfold toHexDigit
  split_ifs <;> omega

theorem toHexDigit_isxdigit (d : Nat) (hd : d < 16) : isxdigit (toHexDigit d) = true := by
  unfold toHexDigit isxdigit isdigit
  split_ifs <;> simp [Bool.or_eq_true, Bool.and_eq_true, decide_eq_true_eq] <;> omega

theorem toHex2_isxdigit (v : Nat) (hv : v < 256) : ∀ c ∈ toHex2 v, isxdigit c = true := by
  intro c hc
  simp [toHex2] at hc
  rcases hc with h | h <;> subst h
  · exact toHexDigit_isxdigit (v / 16) (by omega)
  · exact toHexDigit_isxdigit (v % 16) (by omega)

theorem toHex2_cmdValByte (v : Nat) (hv : v < 256) : ∀ c ∈ toHex2 v, cmdValByte c := by
  intro c hc
  simp [toHex2] at hc
  rcases hc with h | h
  · subst h
    have := toHexDigit_bounds (v / 16) (by omega)
    unfold cmdValByte
    omega
  · subst h
    have := toHexDigit_bounds (v % 16) (by omega)
    unfold cmdValByte
    omega

set_option maxRecDepth 40000 in
theorem s_ParseHex_toHex2 : ∀ v, v < 256 →
    s_ParseHex [toHexDigit (v / 16), toHexDigit (v % 16)] (some 0) = some v := by
  decide

theorem cmdFrame_buf_read (g : Nat → Nat) (hdr value : List Nat) (hhdr : hdr.length = 4)
    (j : Nat) (hj : j < 4 + value.length) :
    updFn (updFn (writeList g 0 (hdr ++ value)) (4 + value.length) 13)
      (4 + value.length + 1) 10 j = (hdr ++ value).getD j 0 := by
  rw [updFn_ne _ _ _ _ (by omega), updFn_ne _ _ _ _ (by omega)]
  rw [writeList_in _ g 0 j (by omega) (by simp [hhdr]; omega)]
  simp

theorem m_WaitCmdResponse_frame (ms : Nat) (m : Modem) (a b : Nat) (value : List Nat)
    (arrRest : List (List Nat))
    (hs : m.parserState = .Start) (hb : m.oneByteBuf = none) (hin : m.input = [])
    (ha : isupper a = true) (hbu : isupper b = true) (hab : ¬(a = 68 ∧ b = 82))
    (hval : ∀ c ∈ value, cmdValByte c) (hlen : value.length ≤ 26) :
    m_WaitCmdResponse ms m ((42 :: a :: b :: 61 :: (value ++ [13, 10])) :: arrRest) =
      (.Ok, { m with
        input := ([] : List Nat)
        parserState := .Start
        rxIdx := 4 + value.length
        rxMessage := updFn (updFn (writeList m.rxMessage 0 ([42, a, b, 61] ++ value))
          (4 + value.length) 13) (4 + value.length + 1) 10 }, arrRest) := by
  have hP := m_Parse_cmdFrame
    { m with input := m.input ++ (42 :: a :: b :: 61 :: (value ++ [13, 10])) }
    a b value [] (by simp [hs]) (by simp [hb]) (by simp [hin]) ha hbu hab hval hlen
  unfold m_WaitCmdResponse
  rw [m_WaitLoop_okStep ms m _ _ (by simpa [nextBatch] using hP)]
  obtain ⟨ps, ob, ri, rx, dp, dl, dm, ae, md, inp, tx, cb⟩ := m
  simp only at hs hb hin
  subst hs; subst hb; subst hin
  simp [nextBatch]

theorem hexChain_decode (M : Modem) (g : Nat → Nat) (a b v : Nat) (hv : v < 256)
    (hID : M.rxIdx = 4 + (toHex2 v).length)
    (hbuf : M.rxMessage = updFn (updFn (writeList g 0 ([42, a, b, 61] ++ toHex2 v))
      (4 + (toHex2 v).length) 13) (4 + (toHex2 v).length + 1) 10) :
    m_HandleMessageHexByte M 6 [42, a, b, 61] = (.Ok, some v, M) := by
  have hr : ∀ j, j < 6 → M.rxMessage j = ([42, a, b, 61] ++ toHex2 v).getD j 0 := by
    intro j hj
    rw [hbuf]
    exact cmdFrame_buf_read g [42, a, b, 61] (toHex2 v) (by simp) j (by simp [toHex2]; omega)
  unfold m_HandleMessageHexByte
  rw [hID]
  simp only [toHex2, List.length_cons, List.length_nil]
  rw [if_neg (by omega)]
  have hp : pfxMatch M.rxMessage [42, a, b, 61] 0 = true := by
    simp only [pfxMatch, Bool.and_eq_true, decide_eq_true_eq]
    refine ⟨by simp [hr 0 (by omega), toHex2], by simp [hr 1 (by omega), toHex2],
      by simp [hr 2 (by omega), toHex2], by simp [hr 3 (by omega), toHex2], trivial⟩
  rw [if_pos hp]
  have h4 : M.rxMessage 4 = toHexDigit (v / 16) := by
    rw [hr 4 (by omega)]
    simp [toHex2]
  have h5 : M.rxMessage 5 = toHexDigit (v % 16) := by
    rw [hr 5 (by omega)]
    simp [toHex2]
  norm_num
  rw [h4, h5, s_ParseHex_toHex2 v hv]

theorem m_GetByteValue_hexFrame (m : Modem) (cmd : List Nat) (a b v : Nat) (hv : v < 256)
    (hs : m.parserState = .Start) (hb : m.oneByteBuf = none) (hin : m.input = [])
    (hbusy : m.asyncExpectedResponse = .Idle)
    (ha : isupper a = true) (hbu : isupper b = true) (hab : ¬(a = 68 ∧ b = 82)) :
    (m_GetByteValue m cmd [42, a, b, 61] 6
      [42 :: a :: b :: 61 :: (toHex2 v ++ [13, 10])]).1 = .Ok ∧
    (m_GetByteValue m cmd [42, a, b, 61] 6
      [42 :: a :: b :: 61 :: (toHex2 v ++ [13, 10])]).2.1 = some v := by
  have hw := m_WaitCmdResponse_frame 500 (writeOut m cmd) a b (toHex2 v) []
    (by simp [writeOut, hs]) (by simp [writeOut, hb]) (by simp [writeOut, hin])
    ha hbu hab (toHex2_cmdValByte v hv) (by simp [toHex2])
  have hd := hexChain_decode
    { writeOut m cmd with
        input := ([] : List Nat)
        parserState := .Start
        rxIdx := 4 + (toHex2 v).length
        rxMessage := updFn (updFn (writeList (writeOut m cmd).rxMessage 0
          ([42, a, b, 61] ++ toHex2 v)) (4 + (toHex2 v).length) 13)
          (4 + (toHex2 v).length + 1) 10 }
    (writeOut m cmd).rxMessage a b v hv rfl rfl
  unfold m_GetByteValue
  simp only [hbusy, ne_eq, not_true_eq_false, if_false, ite_false, if_neg, not_false_eq_true]
  rw [hw]
  simp only [hd, eq_self_iff_true, if_true, ite_true]
  constructor <;> first | trivial | rfl

/-! ## Claim C8 -/

/-- Claim C8, counterexample: with the modem answering star M O equals
0 7 (raw mode byte 7, outside the legal range 0..3), GetMode returns Ok
and stores the raw byte 7 through the reinterpret_cast pointer: there
is no fallible conversion and the whole operation does not fail. -/
theorem C8_counterexample :
    (GetMode (initModem .FskCmd []) [[42, 77, 79, 61, 48, 55, 13, 10]]).1 = .Ok ∧
    (GetMode (initModem .FskCmd []) [[42, 77, 79, 61, 48, 55, 13, 10]]).2.1 = some 7 ∧
    3 < 7 := by
  refine ⟨by decide, by decide, by decide⟩

/-- Claim C8, amended: GetMode and GetSpreadFactor perform no validation
of the decoded byte at all: for every byte value v below 256 (including
mode codes above 3 and spreading-factor codes above 5), a response
star M O (or star S F) equals the two hex digits of v makes the
operation return Ok and store the raw byte v unchecked through the
reinterpret_cast enum pointer. -/
theorem C8_amended_unchecked_enum (v : Nat) (hv : v < 256) :
    ((GetMode (initModem .FskCmd [])
        [42 :: 77 :: 79 :: 61 :: (toHex2 v ++ [13, 10])]).1 = .Ok ∧
     (GetMode (initModem .FskCmd [])
        [42 :: 77 :: 79 :: 61 :: (toHex2 v ++ [13, 10])]).2.1 = some v) ∧
    ((GetSpreadFactor (initModem .FskCmd [])
        [42 :: 83 :: 70 :: 61 :: (toHex2 v ++ [13, 10])]).1 = .Ok ∧
     (GetSpreadFactor (initModem .FskCmd [])
        [42 :: 83 :: 70 :: 61 :: (toHex2 v ++ [13, 10])]).2.1 = some v) := by
  constructor
  · exact m_GetByteValue_hexFrame (initModem .FskCmd []) [64, 77, 79, 13, 10] 77 79 v hv
      rfl rfl rfl rfl (by decide) (by decide) (by decide)
  · exact m_GetByteValue_hexFrame (initModem .FskCmd []) [64, 83, 70, 13, 10] 83 70 v hv
      rfl rfl rfl rfl (by decide) (by decide) (by decide)

/-- Witness for C8: raw mode byte 7 and raw spreading factor byte 9,
both out of range, both stored with Ok. -/
theorem C8_witness :
    ((GetMode (initModem .FskCmd [])
        [42 :: 77 :: 79 :: 61 :: (toHex2 7 ++ [13, 10])]).1 = .Ok ∧
     (GetMode (initModem .FskCmd [])
        [42 :: 77 :: 79 :: 61 :: (toHex2 7 ++ [13, 10])]).2.1 = some 7) ∧
    ((GetSpreadFactor (initModem .FskCmd [])
        [42 :: 83 :: 70 :: 61 :: (toHex2 9 ++ [13, 10])]).1 = .Ok ∧
     (GetSpreadFactor (initModem .FskCmd [])
        [42 :: 83 :: 70 :: 61 :: (toHex2 9 ++ [13, 10])]).2.1 = some 9) := by
  exact ⟨(C8_amended_unchecked_enum 7 (by decide)).1, (C8_amended_unchecked_enum 9 (by decide)).2⟩

/-! ## Claim C6 -/

/-- Claim C6, counterexample: decoding the captured frame star R S
equals minus 1 2 d B m succeeds with value minus 12, but the decoder is
not a pure reader: it overwrites the d byte at index rxIdx minus 3 with
a NUL terminator, so m_rxMessage changes (index 7 held 100 and now
holds 0). -/
theorem C6_counterexample :
    let M : Modem := { initModem .FskCmd [] with
        rxMessage := fun i => List.getD [42, 82, 83, 61, 45, 49, 50, 100, 66, 109] i 0
        rxIdx := 10 }
    (m_HandleMessage_RS M).1 = .Ok ∧
    (m_HandleMessage_RS M).2.1 = some (-12) ∧
    M.rxMessage 7 = 100 ∧
    (m_HandleMessage_RS M).2.2.rxMessage 7 = 0 := by
  refine ⟨by decide, by decide, by decide, by decide⟩

/-- Claim C6, amended: the decoders m_HandleMessage_WR, m_HandleMessage_IZ,
m_HandleMessageHexByte, m_HandleMessageHexWord and m_HandleMessage_SN
return the modem state completely unchanged; m_HandleMessage_RS and
m_HandleMessage_RA preserve the parser state, m_rxIdx and the one-byte
lookahead buffer, but may write a NUL byte over m_rxMessage at index
m_rxIdx minus 3 (they do so exactly on the paths that reach the strtol
call), so they are not pure readers of the frame buffer. -/
theorem C6_amended_decoder_effects (m : Modem) (len : Nat) (pfx : List Nat) :
    (m_HandleMessage_WR m).2 = m ∧
    (m_HandleMessage_IZ m).2 = m ∧
    (m_HandleMessageHexByte m len pfx).2.2 = m ∧
    (m_HandleMessageHexWord m len pfx).2.2 = m ∧
    (m_HandleMessage_SN m).2.2 = m ∧
    ((m_HandleMessage_RS m).2.2.parserState = m.parserState ∧
     (m_HandleMessage_RS m).2.2.rxIdx = m.rxIdx ∧
     (m_HandleMessage_RS m).2.2.oneByteBuf = m.oneByteBuf ∧
     ((m_HandleMessage_RS m).2.2.rxMessage = m.rxMessage ∨
      (m_HandleMessage_RS m).2.2.rxMessage = updFn m.rxMessage (m.rxIdx - 3) 0)) ∧
    ((m_HandleMessage_RA m).2.2.parserState = m.parserState ∧
     (m_HandleMessage_RA m).2.2.rxIdx = m.rxIdx ∧
     (m_HandleMessage_RA m).2.2.oneByteBuf = m.oneByteBuf ∧
     ((m_HandleMessage_RA m).2.2.rxMessage = m.rxMessage ∨
      (m_HandleMessage_RA m).2.2.rxMessage = updFn m.rxMessage (m.rxIdx - 3) 0)) := by
  refine ⟨m_HandleMessage_WR_state m, m_HandleMessage_IZ_state m,
    m_HandleMessageHexByte_state m len pfx, m_HandleMessageHexWord_state m len pfx,
    m_HandleMessage_SN_state m, ?_, ?_⟩
  · exact handleMessageDbm_state m [42, 82, 83, 61]
  · exact handleMessageDbm_state m [42, 82, 65, 61]

/-! ## Claim C7 -/

/-- Claim C7, counterexample: while an asynchronous request is pending,
a SetChannel call with an out-of-range channel returns InvalidArg, not
Busy: the argument validation runs before the busy gate, so the claim
that every such call "returns Busy" is wrong for the operations that
validate arguments first. -/
theorem C7_counterexample :
    let M : Modem := { initModem .FskCmd [] with asyncExpectedResponse := .GenericResponse }
    M.asyncExpectedResponse ≠ .Idle ∧
    (SetChannel M 5 false []).1 = .InvalidArg ∧
    (SetChannel M 5 false []).1 ≠ .Busy := by
  refine ⟨by decide, by decide, by decide⟩

/-- Claim C7, amended: while the pending asynchronous expectation is not
Idle, every request-issuing operation returns without writing any bytes
and with the modem state and uart arrivals unchanged, and the new
request is never queued.  The error code is Busy except where an
argument check precedes the busy gate: SetChannel (range 7..46), SetMode
(binary modes), SetSpreadFactor (factor above 5), SetBaudRate (unknown
rate), SendRawCommand (zero buffer size) and TransmitDataFireAndForget
(zero length) return InvalidArg for invalid arguments even while
busy. -/
theorem C7_amended_busy_gate (m : Modem) (ch sf ei di gi ci br bufSz tmo len : Nat)
    (sv : Bool) (mode : MLR_ModemMode) (cmd pMsg : List Nat) (arr : List (List Nat))
    (h : m.asyncExpectedResponse ≠ .Idle) :
    SetChannel m ch sv arr = ((if ch < 7 ∨ 46 < ch then .InvalidArg else .Busy), m, arr) ∧
    GetChannel m arr = (.Busy, none, m, arr) ∧
    SetMode m mode sv arr = ((if mode = .FskBin ∨ mode = .LoRaBin then .InvalidArg else .Busy), m, arr) ∧
    GetMode m arr = (.Busy, none, m, arr) ∧
    SetSpreadFactor m sf sv arr = ((if 5 < sf then .InvalidArg else .Busy), m, arr) ∧
    GetSpreadFactor m arr = (.Busy, none, m, arr) ∧
    SetEquipmentID m ei sv arr = (.Busy, m, arr) ∧
    GetEquipmentID m arr = (.Busy, none, m, arr) ∧
    SetDestinationID m di sv arr = (.Busy, m, arr) ∧
    GetDestinationID m arr = (.Busy, none, m, arr) ∧
    SetGroupID m gi sv arr = (.Busy, m, arr) ∧
    GetGroupID m arr = (.Busy, none, m, arr) ∧
    GetUserID m arr = (.Busy, none, m, arr) ∧
    GetRssiLastRx m arr = (.Busy, none, m, arr) ∧
    GetRssiCurrentChannel m arr = (.Busy, none, m, arr) ∧
    SetCarrierSenseRssiOutput m ci sv arr = (.Busy, m, arr) ∧
    GetCarrierSenseRssiOutput m arr = (.Busy, none, m, arr) ∧
    GetSerialNumber m arr = (.Busy, none, m, arr) ∧
    FactoryReset m arr = (.Busy, m, arr) ∧
    GetBaudRate m arr = (.Busy, none, m, arr) ∧
    SetBaudRate m br sv arr =
      ((if br = 1200 ∨ br = 2400 ∨ br = 4800 ∨ br = 9600 ∨ br = 19200
          then .Busy else .InvalidArg), m, arr) ∧
    SendRawCommand m cmd bufSz tmo arr =
      ((if bufSz = 0 then .InvalidArg else .Busy), none, m, arr) ∧
    SendRawCommandAsync m cmd arr = (.Busy, m, arr) ∧
    TransmitData m pMsg len arr = (.Busy, m, arr) ∧
    TransmitDataFireAndForget m pMsg len arr =
      ((if len = 0 then .InvalidArg else .Busy), m, arr) ∧
    GetRssiCurrentChannelAsync m arr = (.Busy, m, arr) ∧
    GetSerialNumberAsync m arr = (.Busy, m, arr) := by
  refine ⟨?_, ?_, ?_, ?_, ?_, ?_, ?_, ?_, ?_, ?_, ?_, ?_, ?_, ?_, ?_, ?_, ?_, ?_, ?_, ?_,
    ?_, ?_, ?_, ?_, ?_, ?_, ?_⟩
  · unfold SetChannel m_SetByteValue
    split_ifs <;> simp_all
  · simp [GetChannel, m_GetByteValue, h]
  · unfold SetMode m_SetByteValue
    split_ifs <;> simp_all
  · simp [GetMode, m_GetByteValue, h]
  · unfold SetSpreadFactor m_SetByteValue
    split_ifs <;> simp_all
  · simp [GetSpreadFactor, m_GetByteValue, h]
  · simp [SetEquipmentID, m_SetByteValue, h]
  · simp [GetEquipmentID, m_GetByteValue, h]
  · simp [SetDestinationID, m_SetByteValue, h]
  · simp [GetDestinationID, m_GetByteValue, h]
  · simp [SetGroupID, m_SetByteValue, h]
  · simp [GetGroupID, m_GetByteValue, h]
  · simp [GetUserID, h]
  · simp [GetRssiLastRx, h]
  · simp [GetRssiCurrentChannel, h]
  · simp [SetCarrierSenseRssiOutput, m_SetByteValue, h]
  · simp [GetCarrierSenseRssiOutput, m_GetByteValue, h]
  · simp [GetSerialNumber, h]
  · simp [FactoryReset, h]
  · simp [GetBaudRate, m_GetByteValue, h]
  · unfold SetBaudRate m_SetByteValue
    split <;> simp_all
  · unfold SendRawCommand
    split_ifs <;> simp_all
  · simp [SendRawCommandAsync, h]
  · simp [TransmitData, h]
  · unfold TransmitDataFireAndForget
    split_ifs <;> simp_all
  · simp [GetRssiCurrentChannelAsync, h]
  · simp [GetSerialNumberAsync, h]

/-- Witness for C7: while a generic response is pending, an in-range
SetChannel returns Busy and changes nothing. -/
theorem C7_witness :
    SetChannel { initModem .FskCmd [] with asyncExpectedResponse := .GenericResponse } 10 false []
      = (.Busy, { initModem .FskCmd [] with asyncExpectedResponse := .GenericResponse }, []) := by
  have hh := (C7_amended_busy_gate
    { initModem .FskCmd [] with asyncExpectedResponse := .GenericResponse }
    10 0 0 0 0 0 0 0 0 0 false .FskCmd [] [] [] (by decide)).1
  simpa using hh

theorem waitDecodeHexFrame (tmo : Nat) (M : Modem) (a b v : Nat) (hv : v < 256)
    (hs : M.parserState = .Start) (hb : M.oneByteBuf = none) (hin : M.input = [])
    (ha : isupper a = true) (hbu : isupper b = true) (hab : ¬(a = 68 ∧ b = 82))
    (arrRest : List (List Nat)) :
    ∃ M1 : Modem,
      m_WaitCmdResponse tmo M ((42 :: a :: b :: 61 :: (toHex2 v ++ [13, 10])) :: arrRest)
        = (.Ok, M1, arrRest) ∧
      m_HandleMessageHexByte M1 6 [42, a, b, 61] = (.Ok, some v, M1) ∧
      M1.parserState = .Start ∧ M1.oneByteBuf = none ∧ M1.input = [] ∧ M1.mode = M.mode := by
  refine ⟨{ M with
      input := ([] : List Nat)
      parserState := .Start
      rxIdx := 4 + (toHex2 v).length
      rxMessage := updFn (updFn (writeList M.rxMessage 0 ([42, a, b, 61] ++ toHex2 v))
        (4 + (toHex2 v).length) 13) (4 + (toHex2 v).length + 1) 10 },
    m_WaitCmdResponse_frame tmo M a b (toHex2 v) arrRest hs hb hin ha hbu hab
      (toHex2_cmdValByte v hv) (by simp [toHex2]),
    hexChain_decode _ M.rxMessage a b v hv rfl rfl, rfl, hb, rfl, rfl⟩

/-! ## Claim C4 -/

/-- Claim C4, counterexample: in FSK mode an information-response code 2
(other waves present) yields Ok, not FailLbt (the FSK switch maps only
code 1); and in FSK mode a transmission-length echo that differs from
the requested length also yields Ok, not Fail (the FSK branch converts
every pre-information-response failure into Ok). -/
theorem C4_counterexample :
    (TransmitData (initModem .FskCmd []) [65, 66] 2
        [[42, 68, 84, 61, 48, 50, 13, 10], [42, 73, 82, 61, 48, 50, 13, 10]]).1 = .Ok ∧
    (TransmitData (initModem .FskCmd []) [65] 1
        [[42, 68, 84, 61, 48, 53, 13, 10]]).1 = .Ok := by
  refine ⟨by decide, by decide⟩

set_option maxHeartbeats 12000000 in
/-- Claim C4, amended: TransmitData first awaits the star D T equals
length echo; in LoRa command mode an echoed length differing from the
requested one gives Fail, but in FSK mode it gives Ok, because the FSK
branch turns every failure before the information response into Ok.
The information response is awaited with a 15000 ms deadline in LoRa
command mode and an 11 ms deadline otherwise.  In LoRa command mode
codes 1 and 2 map to FailLbt and every other code (such as 3, complete)
to Ok; in FSK mode only code 1 maps to FailLbt, every other code maps
to Ok, and a timeout of the information-response wait is itself Ok.  A
frame delivered on the last tick of the LoRa deadline is still
accepted; a frame delivered after the FSK deadline is never consumed. -/
theorem C4_amended_transmit (pMsg : List Nat) (len c v : Nat)
    (hlen : len < 256) (hc : c < 256) (hv : v < 256) (hne : v ≠ len) :
    (TransmitData (initModem .LoRaCmd []) pMsg len
        [42 :: 68 :: 84 :: 61 :: (toHex2 len ++ [13, 10]),
         42 :: 73 :: 82 :: 61 :: (toHex2 c ++ [13, 10])]).1
      = (if c = 2 ∨ c = 1 then .FailLbt else .Ok) ∧
    (TransmitData (initModem .FskCmd []) pMsg len
        [42 :: 68 :: 84 :: 61 :: (toHex2 len ++ [13, 10]),
         42 :: 73 :: 82 :: 61 :: (toHex2 c ++ [13, 10])]).1
      = (if c = 1 then .FailLbt else .Ok) ∧
    (TransmitData (initModem .FskCmd []) pMsg len
        [42 :: 68 :: 84 :: 61 :: (toHex2 len ++ [13, 10])]).1 = .Ok ∧
    (TransmitData (initModem .LoRaCmd []) pMsg len
        [42 :: 68 :: 84 :: 61 :: (toHex2 v ++ [13, 10])]).1 = .Fail ∧
    (TransmitData (initModem .FskCmd []) pMsg len
        [42 :: 68 :: 84 :: 61 :: (toHex2 v ++ [13, 10])]).1 = .Ok ∧
    (TransmitData (initModem .LoRaCmd []) pMsg len
        ((42 :: 68 :: 84 :: 61 :: (toHex2 len ++ [13, 10])) ::
          (List.replicate 15000 [] ++ [42 :: 73 :: 82 :: 61 :: (toHex2 c ++ [13, 10])]))).1
      = (if c = 2 ∨ c = 1 then .FailLbt else .Ok) ∧
    (TransmitData (initModem .FskCmd []) pMsg len
        ((42 :: 68 :: 84 :: 61 :: (toHex2 len ++ [13, 10])) ::
          (List.replicate 12 [] ++ [42 :: 73 :: 82 :: 61 :: (toHex2 c ++ [13, 10])]))).1
      = .Ok ∧
    (TransmitData (initModem .FskCmd []) pMsg len
        ((42 :: 68 :: 84 :: 61 :: (toHex2 len ++ [13, 10])) ::
          (List.replicate 12 [] ++ [42 :: 73 :: 82 :: 61 :: (toHex2 c ++ [13, 10])]))).2.2
      = [42 :: 73 :: 82 :: 61 :: (toHex2 c ++ [13, 10])] := by
  refine ⟨?_, ?_, ?_, ?_, ?_, ?_, ?_, ?_⟩
  · -- LoRa, matching echo, IR code c
    obtain ⟨M1, hw1, hd1, hs1, hb1, hin1, hm1⟩ := waitDecodeHexFrame 500
      (writeOut (initModem .LoRaCmd []) ([64, 68, 84] ++ toHex2 len ++ pMsg ++ [13, 10]))
      68 84 len hlen rfl rfl rfl (by decide) (by decide) (by decide)
      [42 :: 73 :: 82 :: 61 :: (toHex2 c ++ [13, 10])]
    have hmode : M1.mode = MLR_ModemMode.LoRaCmd := by rw [hm1]; rfl
    obtain ⟨M2, hw2, hd2, _, _, _, hm2⟩ := waitDecodeHexFrame 15000 M1 73 82 c hc
      hs1 hb1 hin1 (by decide) (by decide) (by decide) []
    have hmode2 : M2.mode = MLR_ModemMode.LoRaCmd := by rw [hm2, hmode]
    obtain ⟨eF, hE⟩ : ∃ l : List Nat,
      42 :: 68 :: 84 :: 61 :: (toHex2 len ++ [13, 10]) = l := ⟨_, rfl⟩
    obtain ⟨iF, hI⟩ : ∃ l : List Nat,
      42 :: 73 :: 82 :: 61 :: (toHex2 c ++ [13, 10]) = l := ⟨_, rfl⟩
    rw [hE, hI] at hw1
    rw [hI] at hw2
    rw [hE, hI]
    unfold TransmitData
    rw [if_neg (show ¬((initModem MLR_ModemMode.LoRaCmd
      ([] : List Nat)).asyncExpectedResponse ≠ MLR_Modem_Response.Idle) by decide)]
    simp only [hw1]
    simp [hd1, hmode, hw2, hd2, hmode2]
    by_cases hc2 : c = 2 ∨ c = 1 <;> simp [hc2]
  · -- FSK, matching echo, IR code c
    obtain ⟨M1, hw1, hd1, hs1, hb1, hin1, hm1⟩ := waitDecodeHexFrame 500
      (writeOut (initModem .FskCmd []) ([64, 68, 84] ++ toHex2 len ++ pMsg ++ [13, 10]))
      68 84 len hlen rfl rfl rfl (by decide) (by decide) (by decide)
      [42 :: 73 :: 82 :: 61 :: (toHex2 c ++ [13, 10])]
    have hmode : M1.mode = MLR_ModemMode.FskCmd := by rw [hm1]; rfl
    obtain ⟨M2, hw2, hd2, _, _, _, hm2⟩ := waitDecodeHexFrame 11 M1 73 82 c hc
      hs1 hb1 hin1 (by decide) (by decide) (by decide) []
    have hmode2 : M2.mode = MLR_ModemMode.FskCmd := by rw [hm2, hmode]
    obtain ⟨eF, hE⟩ : ∃ l : List Nat,
      42 :: 68 :: 84 :: 61 :: (toHex2 len ++ [13, 10]) = l := ⟨_, rfl⟩
    obtain ⟨iF, hI⟩ : ∃ l : List Nat,
      42 :: 73 :: 82 :: 61 :: (toHex2 c ++ [13, 10]) = l := ⟨_, rfl⟩
    rw [hE, hI] at hw1
    rw [hI] at hw2
    rw [hE, hI]
    unfold TransmitData
    rw [if_neg (show ¬((initModem MLR_ModemMode.FskCmd
      ([] : List Nat)).asyncExpectedResponse ≠ MLR_Modem_Response.Idle) by decide)]
    simp only [hw1]
    simp [hd1, hmode, hw2, hd2, hmode2]
    by_cases hc2 : c = 1 <;> simp [hc2]
  · -- FSK, matching echo, no IR frame: timeout of the second wait is Ok
    obtain ⟨M1, hw1, hd1, hs1, hb1, hin1, hm1⟩ := waitDecodeHexFrame 500
      (writeOut (initModem .FskCmd []) ([64, 68, 84] ++ toHex2 len ++ pMsg ++ [13, 10]))
      68 84 len hlen rfl rfl rfl (by decide) (by decide) (by decide) []
    have hmode : M1.mode = MLR_ModemMode.FskCmd := by rw [hm1]; rfl
    have htim : m_WaitCmdResponse 11 M1 [] =
        (.Fail, { M1 with parserState := .Start }, []) := by
      show m_WaitLoop 12 M1 [] = _
      exact m_WaitLoop_empty 12 M1 hin1
    obtain ⟨eF, hE⟩ : ∃ l : List Nat,
      42 :: 68 :: 84 :: 61 :: (toHex2 len ++ [13, 10]) = l := ⟨_, rfl⟩
    rw [hE] at hw1
    rw [hE]
    unfold TransmitData
    rw [if_neg (show ¬((initModem MLR_ModemMode.FskCmd
      ([] : List Nat)).asyncExpectedResponse ≠ MLR_Modem_Response.Idle) by decide)]
    simp only [hw1]
    simp [hd1, hmode, htim]
  · -- LoRa, echo mismatch: Fail
    obtain ⟨M1, hw1, hd1, hs1, hb1, hin1, hm1⟩ := waitDecodeHexFrame 500
      (writeOut (initModem .LoRaCmd []) ([64, 68, 84] ++ toHex2 len ++ pMsg ++ [13, 10]))
      68 84 v hv rfl rfl rfl (by decide) (by decide) (by decide) []
    have hmode : M1.mode = MLR_ModemMode.LoRaCmd := by rw [hm1]; rfl
    obtain ⟨eF, hE⟩ : ∃ l : List Nat,
      42 :: 68 :: 84 :: 61 :: (toHex2 v ++ [13, 10]) = l := ⟨_, rfl⟩
    rw [hE] at hw1
    rw [hE]
    unfold TransmitData
    rw [if_neg (show ¬((initModem MLR_ModemMode.LoRaCmd
      ([] : List Nat)).asyncExpectedResponse ≠ MLR_Modem_Response.Idle) by decide)]
    simp only [hw1]
    simp [hd1, hmode, hne]
  · -- FSK, echo mismatch: Ok
    obtain ⟨M1, hw1, hd1, hs1, hb1, hin1, hm1⟩ := waitDecodeHexFrame 500
      (writeOut (initModem .FskCmd []) ([64, 68, 84] ++ toHex2 len ++ pMsg ++ [13, 10]))
      68 84 v hv rfl rfl rfl (by decide) (by decide) (by decide) []
    have hmode : M1.mode = MLR_ModemMode.FskCmd := by rw [hm1]; rfl
    obtain ⟨eF, hE⟩ : ∃ l : List Nat,
      42 :: 68 :: 84 :: 61 :: (toHex2 v ++ [13, 10]) = l := ⟨_, rfl⟩
    rw [hE] at hw1
    rw [hE]
    unfold TransmitData
    rw [if_neg (show ¬((initModem MLR_ModemMode.FskCmd
      ([] : List Nat)).asyncExpectedResponse ≠ MLR_Modem_Response.Idle) by decide)]
    simp only [hw1]
    simp [hd1, hmode, hne]
  · -- LoRa, IR frame on the last deadline tick is still accepted
    obtain ⟨M1, hw1, hd1, hs1, hb1, hin1, hm1⟩ := waitDecodeHexFrame 500
      (writeOut (initModem .LoRaCmd []) ([64, 68, 84] ++ toHex2 len ++ pMsg ++ [13, 10]))
      68 84 len hlen rfl rfl rfl (by decide) (by decide) (by decide)
      (List.replicate 15000 [] ++ [42 :: 73 :: 82 :: 61 :: (toHex2 c ++ [13, 10])])
    have hmode : M1.mode = MLR_ModemMode.LoRaCmd := by rw [hm1]; rfl
    obtain ⟨M2, hw2, hd2, _, _, _, hm2⟩ := waitDecodeHexFrame 0 M1 73 82 c hc
      hs1 hb1 hin1 (by decide) (by decide) (by decide) []
    have hmode2 : M2.mode = MLR_ModemMode.LoRaCmd := by rw [hm2, hmode]
    have hskip : m_WaitCmdResponse 15000 M1
        (List.replicate 15000 [] ++ [42 :: 73 :: 82 :: 61 :: (toHex2 c ++ [13, 10])]) =
        m_WaitCmdResponse 0 M1 [42 :: 73 :: 82 :: 61 :: (toHex2 c ++ [13, 10])] := by
      show m_WaitLoop (15000 + 1) M1 _ = m_WaitLoop 1 M1 _
      exact m_WaitLoop_skipEmpty 15000 1 M1 _ hin1
    obtain ⟨eF, hE⟩ : ∃ l : List Nat,
      42 :: 68 :: 84 :: 61 :: (toHex2 len ++ [13, 10]) = l := ⟨_, rfl⟩
    obtain ⟨iF, hI⟩ : ∃ l : List Nat,
      42 :: 73 :: 82 :: 61 :: (toHex2 c ++ [13, 10]) = l := ⟨_, rfl⟩
    obtain ⟨zs, hZ⟩ : ∃ l : List (List Nat),
      List.replicate 15000 ([] : List Nat) = l := ⟨_, rfl⟩
    rw [hE, hI, hZ] at hw1
    rw [hI] at hw2
    rw [hI, hZ] at hskip
    rw [hE, hI, hZ]
    unfold TransmitData
    rw [if_neg (show ¬((initModem MLR_ModemMode.LoRaCmd
      ([] : List Nat)).asyncExpectedResponse ≠ MLR_Modem_Response.Idle) by decide)]
    simp only [hw1]
    simp [hd1, hmode, hskip, hw2, hd2, hmode2]
    by_cases hc2 : c = 2 ∨ c = 1 <;> simp [hc2]
  · -- FSK, IR frame one tick past the deadline: timeout, Ok
    obtain ⟨M1, hw1, hd1, hs1, hb1, hin1, hm1⟩ := waitDecodeHexFrame 500
      (writeOut (initModem .FskCmd []) ([64, 68, 84] ++ toHex2 len ++ pMsg ++ [13, 10]))
      68 84 len hlen rfl rfl rfl (by decide) (by decide) (by decide)
      (List.replicate 12 [] ++ [42 :: 73 :: 82 :: 61 :: (toHex2 c ++ [13, 10])])
    have hmode : M1.mode = MLR_ModemMode.FskCmd := by rw [hm1]; rfl
    have htim : m_WaitCmdResponse 11 M1
        (List.replicate 12 [] ++ [42 :: 73 :: 82 :: 61 :: (toHex2 c ++ [13, 10])]) =
        (.Fail, { M1 with parserState := .Start },
          [42 :: 73 :: 82 :: 61 :: (toHex2 c ++ [13, 10])]) := by
      show m_WaitLoop (12 + 0) M1 _ = _
      rw [m_WaitLoop_skipEmpty 12 0 M1 _ hin1]
      rfl
    obtain ⟨eF, hE⟩ : ∃ l : List Nat,
      42 :: 68 :: 84 :: 61 :: (toHex2 len ++ [13, 10]) = l := ⟨_, rfl⟩
    obtain ⟨iF, hI⟩ : ∃ l : List Nat,
      42 :: 73 :: 82 :: 61 :: (toHex2 c ++ [13, 10]) = l := ⟨_, rfl⟩
    obtain ⟨zs, hZ⟩ : ∃ l : List (List Nat),
      List.replicate 12 ([] : List Nat) = l := ⟨_, rfl⟩
    rw [hE, hI, hZ] at hw1
    rw [hI, hZ] at htim
    rw [hE, hI, hZ]
    unfold TransmitData
    rw [if_neg (show ¬((initModem MLR_ModemMode.FskCmd
      ([] : List Nat)).asyncExpectedResponse ≠ MLR_Modem_Response.Idle) by decide)]
    simp only [hw1]
    simp [hd1, hmode, htim]
  · -- FSK, IR frame one tick past the deadline: the frame is never consumed
    obtain ⟨M1, hw1, hd1, hs1, hb1, hin1, hm1⟩ := waitDecodeHexFrame 500
      (writeOut (initModem .FskCmd []) ([64, 68, 84] ++ toHex2 len ++ pMsg ++ [13, 10]))
      68 84 len hlen rfl rfl rfl (by decide) (by decide) (by decide)
      (List.replicate 12 [] ++ [42 :: 73 :: 82 :: 61 :: (toHex2 c ++ [13, 10])])
    have hmode : M1.mode = MLR_ModemMode.FskCmd := by rw [hm1]; rfl
    have htim : m_WaitCmdResponse 11 M1
        (List.replicate 12 [] ++ [42 :: 73 :: 82 :: 61 :: (toHex2 c ++ [13, 10])]) =
        (.Fail, { M1 with parserState := .Start },
          [42 :: 73 :: 82 :: 61 :: (toHex2 c ++ [13, 10])]) := by
      show m_WaitLoop (12 + 0) M1 _ = _
      rw [m_WaitLoop_skipEmpty 12 0 M1 _ hin1]
      rfl
    obtain ⟨eF, hE⟩ : ∃ l : List Nat,
      42 :: 68 :: 84 :: 61 :: (toHex2 len ++ [13, 10]) = l := ⟨_, rfl⟩
    obtain ⟨iF, hI⟩ : ∃ l : List Nat,
      42 :: 73 :: 82 :: 61 :: (toHex2 c ++ [13, 10]) = l := ⟨_, rfl⟩
    obtain ⟨zs, hZ⟩ : ∃ l : List (List Nat),
      List.replicate 12 ([] : List Nat) = l := ⟨_, rfl⟩
    rw [hE, hI, hZ] at hw1
    rw [hI, hZ] at htim
    rw [hE, hI, hZ]
    unfold TransmitData
    rw [if_neg (show ¬((initModem MLR_ModemMode.FskCmd
      ([] : List Nat)).asyncExpectedResponse ≠ MLR_Modem_Response.Idle) by decide)]
    simp only [hw1]
    simp [hd1, hmode, htim]

/-- Witness for C4: a 2-byte LoRa transmission whose information
response carries code 2 returns FailLbt. -/
theorem C4_witness :
    (TransmitData (initModem .LoRaCmd []) [65, 66] 2
        [42 :: 68 :: 84 :: 61 :: (toHex2 2 ++ [13, 10]),
         42 :: 73 :: 82 :: 61 :: (toHex2 2 ++ [13, 10])]).1 = .FailLbt := by
  have hh := (C4_amended_transmit [65, 66] 2 2 5 (by decide) (by decide) (by decide)
    (by decide)).1
  simpa using hh
